import Mathlib

/-!
# Stack-effect table generator (`maynard-tool`)

A shallow embedding of the driver included by `se25.c` and `se31.c`
(`header.h` + `main.h`): the rejection flag `fatal_error`, the stubbed
`Py_FatalError`, and the sweep of `main()` over the opcodes `0..255`; of the
stand-alone copy of that driver in `se27.c`; and of the three pasted functions
`opcode_stack_effect`.

* C `int` values are modelled by `Int`; `main` performs no arithmetic on them
  (only `==`/`!=` tests and `printf`), so no wrap-around can occur in the driver.
* for the driver `opcode_stack_effect` is a parameter: a pure function giving the
  returned `int` and whether the call ran `Py_FatalError` (which sets
  `fatal_error = true`); the three shipped functions are instances of it.
* `HAS_ARG` (from the absent `opcodeNN.h`) and `PYTHON_VERSION` are parameters.
* standard output is the list of `printf` calls performed, each rendered to its
  text by `Printf.text`.
* the state carries a log of the calls made to the effect function, recording
  for each call the opcode, the argument and the value `fatal_error` held
  immediately before the call.
-/

namespace Maynard

/-- Value of `#define NOTFIXED -100` in `header.h`. -/
def NOTFIXED : Int := -100

/-- An effect function `static int opcode_stack_effect(int opcode, int oparg)`:
the `int` it returns, and whether the call ran `Py_FatalError`. -/
abbrev EffectFn := Int → Int → Int × Bool

/-- The five `printf` calls of `main()`, each with its arguments. -/
inductive Printf where
  /-- The call `printf("# Python %s Stack effects\n\n", PYTHON_VERSION)` -/
  | header (version : String)
  /-- The call `printf("[\n")` -/
  | openBracket
  /-- The call `printf("  %d, # %d\n", NOTFIXED, i)` -/
  | sentinelRow (i : Int)
  /-- The call `printf("  %4d, # %d,\n", effect, i)` -/
  | valueRow (effect i : Int)
  /-- The call `printf("]\n")` -/
  | closeBracket
  /-- The call `printf("# Python version 2.7 Stack effects\n\n")` of `se27.c` -/
  | header27
  deriving DecidableEq, Repr

/-- Conversion `%d` of an `int`. -/
def fmtD (n : Int) : String := toString n

/-- Conversion `%4d` of an `int`: right-justified in a field of width at least 4. -/
def fmtD4 (n : Int) : String :=
  String.mk (List.replicate (4 - (fmtD n).length) ' ') ++ fmtD n

/-- Text written by one `printf` call. -/
def Printf.text : Printf → String
  | .header version => "# Python " ++ version ++ " Stack effects\n\n"
  | .openBracket => "[\n"
  | .sentinelRow i => "  " ++ fmtD NOTFIXED ++ ", # " ++ fmtD i ++ "\n"
  | .valueRow effect i => "  " ++ fmtD4 effect ++ ", # " ++ fmtD i ++ ",\n"
  | .closeBracket => "]\n"
  | .header27 => "# Python version 2.7 Stack effects\n\n"

/-- The bytes on standard output. -/
def render (out : List Printf) : String := String.join (out.map Printf.text)

/-- One call of the effect function as seen from `main()`: the opcode, the
argument, and the value of `fatal_error` immediately before the call. -/
structure Probe where
  opcode : Int
  oparg : Int
  flagBefore : Bool
  deriving DecidableEq, Repr

/-- Program state: the static `fatal_error`, what was printed so far, and the
log of calls to the effect function. -/
structure State where
  fatal_error : Bool
  stdout : List Printf
  probes : List Probe
  deriving DecidableEq, Repr

/-- State at program start with `fatal_error` holding `b` (the C initialiser is
`false`), nothing printed and no call made. -/
def start (b : Bool) : State := ⟨b, [], []⟩

/-- A `printf` call appends to standard output. -/
def printf (p : Printf) (s : State) : State :=
  { s with stdout := s.stdout ++ [p] }

/-- A call `opcode_stack_effect(opcode, oparg)`: returns the `int`; if the
function ran `Py_FatalError`, `fatal_error` becomes `true`, otherwise it is
left as it was. The call is logged. -/
def callEffect (f : EffectFn) (opcode oparg : Int) (s : State) : Int × State :=
  ((f opcode oparg).1,
   { s with fatal_error := s.fatal_error || (f opcode oparg).2
            probes := s.probes ++ [⟨opcode, oparg, s.fatal_error⟩] })

/-- The array `int opargs_to_try[] = { -1, 1, ..., 0xffff, 0}`. -/
def opargs_to_try : List Int :=
  [-1, 1, 2, 3, 4, 5, 6, 7, 8, 9, 10, 256, 1000, 0xffff, 0]

/-- The loop `for (j = 0; opargs_to_try[j]; j++) { ... }` of `main()`, run on the
part of the array from index `j` on. Returns the final value of `effect`.
Reading past the end of the array gives `none`. -/
def sampleLoop (f : EffectFn) (i effect : Int) : List Int → State → Option (Int × State)
  | [], _ => none
  | a :: rest, s =>
    if a = 0 then some (effect, s)
    else
      let r := callEffect f i a s
      if effect ≠ r.1 then some (NOTFIXED, r.2)
      else sampleLoop f i effect rest r.2

/-- The final `if (effect != NOTFIXED) printf(...) else printf(...)` of the loop body. -/
def printRow (i : Int) (r : Int × State) : State :=
  if r.1 ≠ NOTFIXED then printf (.valueRow r.1 i) r.2
  else printf (.sentinelRow i) r.2

/-- Body of the loop `for (i = 0; i < 256; i++)` of `main()` for one opcode `i`. -/
def loopBody (f : EffectFn) (HAS_ARG : Int → Bool) (i : Int) (s : State) : Option State :=
  let r := callEffect f i 0 { s with fatal_error := false }
  if r.2.fatal_error = true then
    some (printf (.sentinelRow i) r.2)
  else if HAS_ARG i = true then
    (sampleLoop f i r.1 opargs_to_try r.2).map (printRow i)
  else
    some (printRow i (callEffect f i 0 r.2))

/-- The sweep `main()` of `main.h`, started in state `s`. -/
def main (f : EffectFn) (HAS_ARG : Int → Bool) (PYTHON_VERSION : String) (s : State) :
    Option State :=
  ((List.range 256).foldlM (fun s (i : Nat) => loopBody f HAS_ARG (i : Int) s)
    (printf .openBracket (printf (.header PYTHON_VERSION) s))).map (printf .closeBracket)

/-- A data row read back as `(value, opcode)`; the other lines give `none`. -/
def Printf.row? : Printf → Option (Int × Int)
  | .sentinelRow i => some (NOTFIXED, i)
  | .valueRow effect i => some (effect, i)
  | _ => none

/-- The data rows of an output, in order, as `(value, opcode)`. -/
def dataRows (out : List Printf) : List (Int × Int) := out.filterMap Printf.row?

/-- The table entry for opcode `o`: the value of the `o`-th data row. -/
def entry (out : List Printf) (o : Nat) : Option Int := ((dataRows out)[o]?).map Prod.fst

/-- The arguments of the calls made for opcode `o`, in the order of the calls. -/
def argsFor (log : List Probe) (o : Int) : List Int :=
  (log.filter (fun p => p.opcode = o)).map Probe.oparg

/-- Output and log of `d` placed after those of `pre`. -/
def State.after (pre d : State) : State :=
  ⟨d.fatal_error, pre.stdout ++ d.stdout, pre.probes ++ d.probes⟩

/-- What the loop body does for opcode `i` on its own: its final flag, its row
and its calls (`loopBody` run from the empty state). -/
def bodyOf (f : EffectFn) (HAS_ARG : Int → Bool) (i : Int) : State :=
  (loopBody f HAS_ARG i (start false)).getD (start false)

/-- The value of the row printed for opcode `i` (read off the row that the loop
body prints). -/
def valueOf (f : EffectFn) (HAS_ARG : Int → Bool) (i : Int) : Int :=
  (entry (bodyOf f HAS_ARG i).stdout 0).getD 0

/-- The argument sample set: the entries of `opargs_to_try` before its terminating `0`. -/
def samples : List Int := [-1, 1, 2, 3, 4, 5, 6, 7, 8, 9, 10, 256, 1000, 65535]

/-- The flags recorded in a log are those of a flag that holds `b` before the
first call and is set, never cleared, by each call that runs `Py_FatalError`. -/
def flagsFrom (f : EffectFn) : Bool → List Probe → Prop
  | _, [] => True
  | b, p :: rest => p.flagBefore = b ∧ flagsFrom f (b || (f p.opcode p.oparg).2) rest

/-! ### Concrete effect functions used as test inputs -/

/-- An effect function that rejects opcode 200 (returning 0 from the `default:`
branch) and reports `1` for every other opcode. -/
def rejects200 : EffectFn := fun o _ => if o = 200 then (0, true) else (1, false)

/-- The effect `1 - oparg` for every opcode, never rejecting. -/
def oneMinusArg : EffectFn := fun _ a => (1 - a, false)

/-- The effect `-1` for every opcode and argument, never rejecting. -/
def minusOne : EffectFn := fun _ _ => (-1, false)

/-- The effect `1` for every opcode and argument, never rejecting. -/
def plusOne : EffectFn := fun _ _ => (1, false)

/-- An effect that is `5` at argument 0 and `3` at every other argument. -/
def fiveThenThree : EffectFn := fun _ a => (if a = 0 then 5 else 3, false)

/-- An effect function that returns `0` everywhere and runs `Py_FatalError`
exactly when the argument is `-1`. -/
def rejectsArgMinusOne : EffectFn := fun _ a => (0, decide (a = -1))

/-- An effect function that reports `-100` for every opcode and argument. -/
def minusHundred : EffectFn := fun _ _ => (-100, false)

/-- An effect that is `1` at argument 11 and `0` at every other argument. -/
def differsAt11 : EffectFn := fun _ a => (if a = 11 then 1 else 0, false)

/-- The loop `for (j = 0; opargs_to_try[j]; j++) { ... }` written with its index
`j`: each test of the loop condition reads `arr[j]`, and `reads` lists the indices
read so far. The first `Nat` bounds the number of iterations; running out of it,
or reading outside `arr`, gives `none`. -/
def sampleLoopAt (f : EffectFn) (i effect : Int) (arr : List Int) :
    Nat → Nat → State → List Nat → Option ((Int × State) × List Nat)
  | 0, _, _, _ => none
  | fuel + 1, j, s, reads =>
    match arr[j]? with
    | none => none
    | some a =>
      if a = 0 then some ((effect, s), reads ++ [j])
      else
        let r := callEffect f i a s
        if effect ≠ r.1 then some ((NOTFIXED, r.2), reads ++ [j])
        else sampleLoopAt f i effect arr fuel (j + 1) r.2 (reads ++ [j])

/-! ### The stand-alone driver of `se27.c`

`se27.c` does not include `header.h` and `main.h`: it carries its own copies of
`NOTFIXED`, `fatal_error`, `Py_FatalError` and `main()`. They are translated here
from `se27.c` itself. -/

/-- Value of `#define NOTFIXED -100` in `se27.c`. -/
def se27.NOTFIXED : Int := -100

/-- The array `int opargs_to_try[] = { -1, 1, ..., 0xffff, 0}` of `main()` in `se27.c`. -/
def se27.opargs_to_try : List Int :=
  [-1, 1, 2, 3, 4, 5, 6, 7, 8, 9, 10, 256, 1000, 0xffff, 0]

/-- The loop `for (j = 0; opargs_to_try[j]; j++) { ... }` of `main()` in `se27.c`. -/
def se27.sampleLoop (f : EffectFn) (i effect : Int) : List Int → State → Option (Int × State)
  | [], _ => none
  | a :: rest, s =>
    if a = 0 then some (effect, s)
    else
      let r := callEffect f i a s
      if effect ≠ r.1 then some (se27.NOTFIXED, r.2)
      else se27.sampleLoop f i effect rest r.2

/-- The final `if (effect != NOTFIXED) printf(...) else printf(...)` in `se27.c`. -/
def se27.printRow (i : Int) (r : Int × State) : State :=
  if r.1 ≠ se27.NOTFIXED then printf (.valueRow r.1 i) r.2
  else printf (.sentinelRow i) r.2

/-- Body of the loop `for (i = 0; i < 256; i++)` of `main()` in `se27.c`. -/
def se27.loopBody (f : EffectFn) (HAS_ARG : Int → Bool) (i : Int) (s : State) : Option State :=
  let r := callEffect f i 0 { s with fatal_error := false }
  if r.2.fatal_error = true then
    some (printf (.sentinelRow i) r.2)
  else if HAS_ARG i = true then
    (se27.sampleLoop f i r.1 se27.opargs_to_try r.2).map (se27.printRow i)
  else
    some (se27.printRow i (callEffect f i 0 r.2))

/-- The sweep `main()` of `se27.c`, started in state `s`. -/
def se27.main (f : EffectFn) (HAS_ARG : Int → Bool) (s : State) : Option State :=
  ((List.range 256).foldlM (fun s (i : Nat) => se27.loopBody f HAS_ARG (i : Int) s)
    (printf .openBracket (printf .header27 s))).map (printf .closeBracket)

/-! ### The three shipped effect functions

`se25.c`, `se27.c` and `se31.c` each paste one `opcode_stack_effect`: a
`switch (opcode)` whose cases return, and whose `default:` branch calls the
silenced `fprintf`, runs `Py_FatalError` and falls through to `return 0`.

The case labels are macros of the absent headers `opcode25.h`, `opcode27.h` and
`opcode31.h`. The numbering is therefore a parameter, given as the map `label`
from an `int` to the case label whose value it is, if any (the labels of one C
`switch` are pairwise distinct, so there is at most one). -/

/-- A 32-bit `int` result: signed overflow, undefined in C, is modelled as
two's-complement wrap-around. It can only occur in `-oparg`, `oparg-1`,
`1-oparg` and `-oparg-1`, for an `oparg` within 1 of `INT_MIN`. -/
def int32 (x : Int) : Int := (x + 2 ^ 31) % 2 ^ 32 - 2 ^ 31

/-- The skeleton `switch (opcode) { case ...: return ...; default: fprintf(...);
Py_FatalError(...); } return 0;` common to the three functions. -/
def switchEffect {L : Type} (label : Int → Option L) (caseReturn : L → Int → Int) : EffectFn :=
  fun opcode oparg =>
    match label opcode with
    | some l => (caseReturn l oparg, false)
    | none => (0, true)

/-- The case labels of the `switch (opcode)` of `opcode_stack_effect` in `se25.c`, in
source order (`SLICE_1` stands for the label `SLICE+1`). -/
inductive se25.Label where
  | POP_TOP | ROT_TWO | ROT_THREE | DUP_TOP | ROT_FOUR | UNARY_POSITIVE | UNARY_NEGATIVE
  | UNARY_NOT | UNARY_CONVERT | UNARY_INVERT | LIST_APPEND | BINARY_POWER | BINARY_MULTIPLY
  | BINARY_DIVIDE | BINARY_MODULO | BINARY_ADD | BINARY_SUBTRACT | BINARY_SUBSCR
  | BINARY_FLOOR_DIVIDE | BINARY_TRUE_DIVIDE | INPLACE_FLOOR_DIVIDE | INPLACE_TRUE_DIVIDE
  | SLICE_0 | SLICE_1 | SLICE_2 | SLICE_3 | STORE_SLICE_0 | STORE_SLICE_1 | STORE_SLICE_2
  | STORE_SLICE_3 | DELETE_SLICE_0 | DELETE_SLICE_1 | DELETE_SLICE_2 | DELETE_SLICE_3
  | INPLACE_ADD | INPLACE_SUBTRACT | INPLACE_MULTIPLY | INPLACE_DIVIDE | INPLACE_MODULO
  | STORE_SUBSCR | DELETE_SUBSCR | BINARY_LSHIFT | BINARY_RSHIFT | BINARY_AND | BINARY_XOR
  | BINARY_OR | INPLACE_POWER | GET_ITER | PRINT_EXPR | PRINT_ITEM | PRINT_NEWLINE
  | PRINT_ITEM_TO | PRINT_NEWLINE_TO | INPLACE_LSHIFT | INPLACE_RSHIFT | INPLACE_AND
  | INPLACE_XOR | INPLACE_OR | BREAK_LOOP | WITH_CLEANUP | LOAD_LOCALS | RETURN_VALUE
  | IMPORT_STAR | EXEC_STMT | YIELD_VALUE | POP_BLOCK | END_FINALLY | BUILD_CLASS | STORE_NAME
  | DELETE_NAME | UNPACK_SEQUENCE | FOR_ITER | STORE_ATTR | DELETE_ATTR | STORE_GLOBAL
  | DELETE_GLOBAL | DUP_TOPX | LOAD_CONST | LOAD_NAME | BUILD_TUPLE | BUILD_LIST | BUILD_MAP
  | LOAD_ATTR | COMPARE_OP | IMPORT_NAME | IMPORT_FROM | JUMP_FORWARD | JUMP_IF_FALSE
  | JUMP_IF_TRUE | JUMP_ABSOLUTE | LOAD_GLOBAL | CONTINUE_LOOP | SETUP_LOOP | SETUP_EXCEPT
  | SETUP_FINALLY | LOAD_FAST | STORE_FAST | DELETE_FAST | RAISE_VARARGS | CALL_FUNCTION
  | CALL_FUNCTION_VAR | CALL_FUNCTION_KW | CALL_FUNCTION_VAR_KW | MAKE_FUNCTION | BUILD_SLICE
  | MAKE_CLOSURE | LOAD_CLOSURE | LOAD_DEREF | STORE_DEREF
  deriving DecidableEq, Repr

/-- The macro `NARGS(o)` of `se25.c`, with the truncating `/` and `%` of C. -/
def se25.NARGS (o : Int) : Int := Int.tmod o 256 + 2 * Int.tdiv o 256

/-- The `return` statement of each case of `opcode_stack_effect` in `se25.c`. -/
def se25.caseReturn : se25.Label → Int → Int
  | .POP_TOP, _ => -1
  | .ROT_TWO, _ | .ROT_THREE, _ => 0
  | .DUP_TOP, _ => 1
  | .ROT_FOUR, _ => 0
  | .UNARY_POSITIVE, _ | .UNARY_NEGATIVE, _ | .UNARY_NOT, _ | .UNARY_CONVERT, _
  | .UNARY_INVERT, _ => 0
  | .LIST_APPEND, _ => -2
  | .BINARY_POWER, _ | .BINARY_MULTIPLY, _ | .BINARY_DIVIDE, _ | .BINARY_MODULO, _
  | .BINARY_ADD, _ | .BINARY_SUBTRACT, _ | .BINARY_SUBSCR, _ | .BINARY_FLOOR_DIVIDE, _
  | .BINARY_TRUE_DIVIDE, _ => -1
  | .INPLACE_FLOOR_DIVIDE, _ | .INPLACE_TRUE_DIVIDE, _ => -1
  | .SLICE_0, _ => 1
  | .SLICE_1, _ => 0
  | .SLICE_2, _ => 0
  | .SLICE_3, _ => -1
  | .STORE_SLICE_0, _ => -2
  | .STORE_SLICE_1, _ => -3
  | .STORE_SLICE_2, _ => -3
  | .STORE_SLICE_3, _ => -4
  | .DELETE_SLICE_0, _ => -1
  | .DELETE_SLICE_1, _ => -2
  | .DELETE_SLICE_2, _ => -2
  | .DELETE_SLICE_3, _ => -3
  | .INPLACE_ADD, _ | .INPLACE_SUBTRACT, _ | .INPLACE_MULTIPLY, _ | .INPLACE_DIVIDE, _
  | .INPLACE_MODULO, _ => -1
  | .STORE_SUBSCR, _ => -3
  | .DELETE_SUBSCR, _ => -2
  | .BINARY_LSHIFT, _ | .BINARY_RSHIFT, _ | .BINARY_AND, _ | .BINARY_XOR, _ | .BINARY_OR, _ => -1
  | .INPLACE_POWER, _ => -1
  | .GET_ITER, _ => 0
  | .PRINT_EXPR, _ => -1
  | .PRINT_ITEM, _ => -1
  | .PRINT_NEWLINE, _ => 0
  | .PRINT_ITEM_TO, _ => -2
  | .PRINT_NEWLINE_TO, _ => -1
  | .INPLACE_LSHIFT, _ | .INPLACE_RSHIFT, _ | .INPLACE_AND, _ | .INPLACE_XOR, _ | .INPLACE_OR, _ => -1
  | .BREAK_LOOP, _ => 0
  | .WITH_CLEANUP, _ => -1
  | .LOAD_LOCALS, _ => 1
  | .RETURN_VALUE, _ => -1
  | .IMPORT_STAR, _ => -1
  | .EXEC_STMT, _ => -3
  | .YIELD_VALUE, _ => 0
  | .POP_BLOCK, _ => 0
  | .END_FINALLY, _ => -1
  | .BUILD_CLASS, _ => -2
  | .STORE_NAME, _ => -1
  | .DELETE_NAME, _ => 0
  | .UNPACK_SEQUENCE, oparg => int32 (oparg - 1)
  | .FOR_ITER, _ => 1
  | .STORE_ATTR, _ => -2
  | .DELETE_ATTR, _ => -1
  | .STORE_GLOBAL, _ => -1
  | .DELETE_GLOBAL, _ => 0
  | .DUP_TOPX, oparg => oparg
  | .LOAD_CONST, _ => 1
  | .LOAD_NAME, _ => 1
  | .BUILD_TUPLE, oparg | .BUILD_LIST, oparg => int32 (1 - oparg)
  | .BUILD_MAP, _ => 1
  | .LOAD_ATTR, _ => 0
  | .COMPARE_OP, _ => -1
  | .IMPORT_NAME, _ => 0
  | .IMPORT_FROM, _ => 1
  | .JUMP_FORWARD, _ | .JUMP_IF_FALSE, _ | .JUMP_IF_TRUE, _ | .JUMP_ABSOLUTE, _ => 0
  | .LOAD_GLOBAL, _ => 1
  | .CONTINUE_LOOP, _ => 0
  | .SETUP_LOOP, _ => 0
  | .SETUP_EXCEPT, _ | .SETUP_FINALLY, _ => 3
  | .LOAD_FAST, _ => 1
  | .STORE_FAST, _ => -1
  | .DELETE_FAST, _ => 0
  | .RAISE_VARARGS, oparg => int32 (-oparg)
  | .CALL_FUNCTION, oparg => -(se25.NARGS oparg)
  | .CALL_FUNCTION_VAR, oparg | .CALL_FUNCTION_KW, oparg => -(se25.NARGS oparg) - 1
  | .CALL_FUNCTION_VAR_KW, oparg => -(se25.NARGS oparg) - 2
  | .MAKE_FUNCTION, oparg => int32 (-oparg)
  | .BUILD_SLICE, oparg => if oparg = 3 then -2 else -1
  | .MAKE_CLOSURE, oparg => int32 (-oparg)
  | .LOAD_CLOSURE, _ => 1
  | .LOAD_DEREF, _ => 1
  | .STORE_DEREF, _ => -1

/-- The function `opcode_stack_effect` of `se25.c`, for the numbering `label`. -/
def se25.opcode_stack_effect (label : Int → Option se25.Label) : EffectFn :=
  switchEffect label se25.caseReturn

/-- The case labels of the `switch (opcode)` of `opcode_stack_effect` in `se27.c`, in
source order (`SLICE_1` stands for the label `SLICE+1`). -/
inductive se27.Label where
  | POP_TOP | ROT_TWO | ROT_THREE | DUP_TOP | ROT_FOUR | UNARY_POSITIVE | UNARY_NEGATIVE
  | UNARY_NOT | UNARY_CONVERT | UNARY_INVERT | SET_ADD | LIST_APPEND | MAP_ADD | BINARY_POWER
  | BINARY_MULTIPLY | BINARY_DIVIDE | BINARY_MODULO | BINARY_ADD | BINARY_SUBTRACT
  | BINARY_SUBSCR | BINARY_FLOOR_DIVIDE | BINARY_TRUE_DIVIDE | INPLACE_FLOOR_DIVIDE
  | INPLACE_TRUE_DIVIDE | SLICE_0 | SLICE_1 | SLICE_2 | SLICE_3 | STORE_SLICE_0 | STORE_SLICE_1
  | STORE_SLICE_2 | STORE_SLICE_3 | DELETE_SLICE_0 | DELETE_SLICE_1 | DELETE_SLICE_2
  | DELETE_SLICE_3 | INPLACE_ADD | INPLACE_SUBTRACT | INPLACE_MULTIPLY | INPLACE_DIVIDE
  | INPLACE_MODULO | STORE_SUBSCR | STORE_MAP | DELETE_SUBSCR | BINARY_LSHIFT | BINARY_RSHIFT
  | BINARY_AND | BINARY_XOR | BINARY_OR | INPLACE_POWER | GET_ITER | PRINT_EXPR | PRINT_ITEM
  | PRINT_NEWLINE | PRINT_ITEM_TO | PRINT_NEWLINE_TO | INPLACE_LSHIFT | INPLACE_RSHIFT
  | INPLACE_AND | INPLACE_XOR | INPLACE_OR | BREAK_LOOP | SETUP_WITH | WITH_CLEANUP | LOAD_LOCALS
  | RETURN_VALUE | IMPORT_STAR | EXEC_STMT | YIELD_VALUE | POP_BLOCK | END_FINALLY | BUILD_CLASS
  | STORE_NAME | DELETE_NAME | UNPACK_SEQUENCE | FOR_ITER | STORE_ATTR | DELETE_ATTR
  | STORE_GLOBAL | DELETE_GLOBAL | DUP_TOPX | LOAD_CONST | LOAD_NAME | BUILD_TUPLE | BUILD_LIST
  | BUILD_SET | BUILD_MAP | LOAD_ATTR | COMPARE_OP | IMPORT_NAME | IMPORT_FROM | JUMP_FORWARD
  | JUMP_IF_TRUE_OR_POP | JUMP_IF_FALSE_OR_POP | JUMP_ABSOLUTE | POP_JUMP_IF_FALSE
  | POP_JUMP_IF_TRUE | LOAD_GLOBAL | CONTINUE_LOOP | SETUP_LOOP | SETUP_EXCEPT | SETUP_FINALLY
  | LOAD_FAST | STORE_FAST | DELETE_FAST | RAISE_VARARGS | CALL_FUNCTION | CALL_FUNCTION_VAR
  | CALL_FUNCTION_KW | CALL_FUNCTION_VAR_KW | MAKE_FUNCTION | BUILD_SLICE | MAKE_CLOSURE
  | LOAD_CLOSURE | LOAD_DEREF | STORE_DEREF
  deriving DecidableEq, Repr

/-- The macro `NARGS(o)` of `se27.c`, with the truncating `/` and `%` of C. -/
def se27.NARGS (o : Int) : Int := Int.tmod o 256 + 2 * Int.tdiv o 256

/-- The `return` statement of each case of `opcode_stack_effect` in `se27.c`. -/
def se27.caseReturn : se27.Label → Int → Int
  | .POP_TOP, _ => -1
  | .ROT_TWO, _ | .ROT_THREE, _ => 0
  | .DUP_TOP, _ => 1
  | .ROT_FOUR, _ => 0
  | .UNARY_POSITIVE, _ | .UNARY_NEGATIVE, _ | .UNARY_NOT, _ | .UNARY_CONVERT, _
  | .UNARY_INVERT, _ => 0
  | .SET_ADD, _ | .LIST_APPEND, _ => -1
  | .MAP_ADD, _ => -2
  | .BINARY_POWER, _ | .BINARY_MULTIPLY, _ | .BINARY_DIVIDE, _ | .BINARY_MODULO, _
  | .BINARY_ADD, _ | .BINARY_SUBTRACT, _ | .BINARY_SUBSCR, _ | .BINARY_FLOOR_DIVIDE, _
  | .BINARY_TRUE_DIVIDE, _ => -1
  | .INPLACE_FLOOR_DIVIDE, _ | .INPLACE_TRUE_DIVIDE, _ => -1
  | .SLICE_0, _ => 0
  | .SLICE_1, _ => -1
  | .SLICE_2, _ => -1
  | .SLICE_3, _ => -2
  | .STORE_SLICE_0, _ => -2
  | .STORE_SLICE_1, _ => -3
  | .STORE_SLICE_2, _ => -3
  | .STORE_SLICE_3, _ => -4
  | .DELETE_SLICE_0, _ => -1
  | .DELETE_SLICE_1, _ => -2
  | .DELETE_SLICE_2, _ => -2
  | .DELETE_SLICE_3, _ => -3
  | .INPLACE_ADD, _ | .INPLACE_SUBTRACT, _ | .INPLACE_MULTIPLY, _ | .INPLACE_DIVIDE, _
  | .INPLACE_MODULO, _ => -1
  | .STORE_SUBSCR, _ => -3
  | .STORE_MAP, _ => -2
  | .DELETE_SUBSCR, _ => -2
  | .BINARY_LSHIFT, _ | .BINARY_RSHIFT, _ | .BINARY_AND, _ | .BINARY_XOR, _ | .BINARY_OR, _ => -1
  | .INPLACE_POWER, _ => -1
  | .GET_ITER, _ => 0
  | .PRINT_EXPR, _ => -1
  | .PRINT_ITEM, _ => -1
  | .PRINT_NEWLINE, _ => 0
  | .PRINT_ITEM_TO, _ => -2
  | .PRINT_NEWLINE_TO, _ => -1
  | .INPLACE_LSHIFT, _ | .INPLACE_RSHIFT, _ | .INPLACE_AND, _ | .INPLACE_XOR, _ | .INPLACE_OR, _ => -1
  | .BREAK_LOOP, _ => 0
  | .SETUP_WITH, _ => 4
  | .WITH_CLEANUP, _ => -1
  | .LOAD_LOCALS, _ => 1
  | .RETURN_VALUE, _ => -1
  | .IMPORT_STAR, _ => -1
  | .EXEC_STMT, _ => -3
  | .YIELD_VALUE, _ => 0
  | .POP_BLOCK, _ => 0
  | .END_FINALLY, _ => -3
  | .BUILD_CLASS, _ => -2
  | .STORE_NAME, _ => -1
  | .DELETE_NAME, _ => 0
  | .UNPACK_SEQUENCE, oparg => int32 (oparg - 1)
  | .FOR_ITER, _ => 1
  | .STORE_ATTR, _ => -2
  | .DELETE_ATTR, _ => -1
  | .STORE_GLOBAL, _ => -1
  | .DELETE_GLOBAL, _ => 0
  | .DUP_TOPX, oparg => oparg
  | .LOAD_CONST, _ => 1
  | .LOAD_NAME, _ => 1
  | .BUILD_TUPLE, oparg | .BUILD_LIST, oparg | .BUILD_SET, oparg => int32 (1 - oparg)
  | .BUILD_MAP, _ => 1
  | .LOAD_ATTR, _ => 0
  | .COMPARE_OP, _ => -1
  | .IMPORT_NAME, _ => -1
  | .IMPORT_FROM, _ => 1
  | .JUMP_FORWARD, _ | .JUMP_IF_TRUE_OR_POP, _ | .JUMP_IF_FALSE_OR_POP, _ | .JUMP_ABSOLUTE, _ => 0
  | .POP_JUMP_IF_FALSE, _ | .POP_JUMP_IF_TRUE, _ => -1
  | .LOAD_GLOBAL, _ => 1
  | .CONTINUE_LOOP, _ => 0
  | .SETUP_LOOP, _ | .SETUP_EXCEPT, _ | .SETUP_FINALLY, _ => 0
  | .LOAD_FAST, _ => 1
  | .STORE_FAST, _ => -1
  | .DELETE_FAST, _ => 0
  | .RAISE_VARARGS, oparg => int32 (-oparg)
  | .CALL_FUNCTION, oparg => -(se27.NARGS oparg)
  | .CALL_FUNCTION_VAR, oparg | .CALL_FUNCTION_KW, oparg => -(se27.NARGS oparg) - 1
  | .CALL_FUNCTION_VAR_KW, oparg => -(se27.NARGS oparg) - 2
  | .MAKE_FUNCTION, oparg => int32 (-oparg)
  | .BUILD_SLICE, oparg => if oparg = 3 then -2 else -1
  | .MAKE_CLOSURE, oparg => int32 (int32 (-oparg) - 1)
  | .LOAD_CLOSURE, _ => 1
  | .LOAD_DEREF, _ => 1
  | .STORE_DEREF, _ => -1

/-- The function `opcode_stack_effect` of `se27.c`, for the numbering `label`. -/
def se27.opcode_stack_effect (label : Int → Option se27.Label) : EffectFn :=
  switchEffect label se27.caseReturn

/-- The case labels of the `switch (opcode)` of `opcode_stack_effect` in `se31.c`, in
source order (`SLICE_1` stands for the label `SLICE+1`). -/
inductive se31.Label where
  | POP_TOP | ROT_TWO | ROT_THREE | DUP_TOP | ROT_FOUR | UNARY_POSITIVE | UNARY_NEGATIVE
  | UNARY_NOT | UNARY_INVERT | SET_ADD | LIST_APPEND | MAP_ADD | BINARY_POWER | BINARY_MULTIPLY
  | BINARY_MODULO | BINARY_ADD | BINARY_SUBTRACT | BINARY_SUBSCR | BINARY_FLOOR_DIVIDE
  | BINARY_TRUE_DIVIDE | INPLACE_FLOOR_DIVIDE | INPLACE_TRUE_DIVIDE | INPLACE_ADD
  | INPLACE_SUBTRACT | INPLACE_MULTIPLY | INPLACE_MODULO | STORE_SUBSCR | STORE_MAP
  | DELETE_SUBSCR | BINARY_LSHIFT | BINARY_RSHIFT | BINARY_AND | BINARY_XOR | BINARY_OR
  | INPLACE_POWER | GET_ITER | PRINT_EXPR | LOAD_BUILD_CLASS | INPLACE_LSHIFT | INPLACE_RSHIFT
  | INPLACE_AND | INPLACE_XOR | INPLACE_OR | BREAK_LOOP | WITH_CLEANUP | STORE_LOCALS
  | RETURN_VALUE | IMPORT_STAR | YIELD_VALUE | POP_BLOCK | POP_EXCEPT | END_FINALLY | STORE_NAME
  | DELETE_NAME | UNPACK_SEQUENCE | UNPACK_EX | FOR_ITER | STORE_ATTR | DELETE_ATTR
  | STORE_GLOBAL | DELETE_GLOBAL | DUP_TOPX | LOAD_CONST | LOAD_NAME | BUILD_TUPLE | BUILD_LIST
  | BUILD_SET | BUILD_MAP | LOAD_ATTR | COMPARE_OP | IMPORT_NAME | IMPORT_FROM | JUMP_FORWARD
  | JUMP_IF_TRUE_OR_POP | JUMP_IF_FALSE_OR_POP | JUMP_ABSOLUTE | POP_JUMP_IF_FALSE
  | POP_JUMP_IF_TRUE | LOAD_GLOBAL | CONTINUE_LOOP | SETUP_LOOP | SETUP_EXCEPT | SETUP_FINALLY
  | LOAD_FAST | STORE_FAST | DELETE_FAST | RAISE_VARARGS | CALL_FUNCTION | CALL_FUNCTION_VAR
  | CALL_FUNCTION_KW | CALL_FUNCTION_VAR_KW | MAKE_FUNCTION | MAKE_CLOSURE | BUILD_SLICE
  | LOAD_CLOSURE | LOAD_DEREF | STORE_DEREF
  deriving DecidableEq, Repr

/-- The macro `NARGS(o)` of `se31.c`, with the truncating `/` and `%` of C. -/
def se31.NARGS (o : Int) : Int := Int.tmod o 256 + 2 * Int.tmod (Int.tdiv o 256) 256

/-- The `return` statement of each case of `opcode_stack_effect` in `se31.c`. -/
def se31.caseReturn : se31.Label → Int → Int
  | .POP_TOP, _ => -1
  | .ROT_TWO, _ | .ROT_THREE, _ => 0
  | .DUP_TOP, _ => 1
  | .ROT_FOUR, _ => 0
  | .UNARY_POSITIVE, _ | .UNARY_NEGATIVE, _ | .UNARY_NOT, _ | .UNARY_INVERT, _ => 0
  | .SET_ADD, _ | .LIST_APPEND, _ => -1
  | .MAP_ADD, _ => -2
  | .BINARY_POWER, _ | .BINARY_MULTIPLY, _ | .BINARY_MODULO, _ | .BINARY_ADD, _
  | .BINARY_SUBTRACT, _ | .BINARY_SUBSCR, _ | .BINARY_FLOOR_DIVIDE, _ | .BINARY_TRUE_DIVIDE, _ => -1
  | .INPLACE_FLOOR_DIVIDE, _ | .INPLACE_TRUE_DIVIDE, _ => -1
  | .INPLACE_ADD, _ | .INPLACE_SUBTRACT, _ | .INPLACE_MULTIPLY, _ | .INPLACE_MODULO, _ => -1
  | .STORE_SUBSCR, _ => -3
  | .STORE_MAP, _ => -2
  | .DELETE_SUBSCR, _ => -2
  | .BINARY_LSHIFT, _ | .BINARY_RSHIFT, _ | .BINARY_AND, _ | .BINARY_XOR, _ | .BINARY_OR, _ => -1
  | .INPLACE_POWER, _ => -1
  | .GET_ITER, _ => 0
  | .PRINT_EXPR, _ => -1
  | .LOAD_BUILD_CLASS, _ => 1
  | .INPLACE_LSHIFT, _ | .INPLACE_RSHIFT, _ | .INPLACE_AND, _ | .INPLACE_XOR, _ | .INPLACE_OR, _ => -1
  | .BREAK_LOOP, _ => 0
  | .WITH_CLEANUP, _ => -1
  | .STORE_LOCALS, _ => -1
  | .RETURN_VALUE, _ => -1
  | .IMPORT_STAR, _ => -1
  | .YIELD_VALUE, _ => 0
  | .POP_BLOCK, _ => 0
  | .POP_EXCEPT, _ => 0
  | .END_FINALLY, _ => -1
  | .STORE_NAME, _ => -1
  | .DELETE_NAME, _ => 0
  | .UNPACK_SEQUENCE, oparg => int32 (oparg - 1)
  | .UNPACK_EX, oparg => Int.land oparg 0xFF + (oparg >>> 8)
  | .FOR_ITER, _ => 1
  | .STORE_ATTR, _ => -2
  | .DELETE_ATTR, _ => -1
  | .STORE_GLOBAL, _ => -1
  | .DELETE_GLOBAL, _ => 0
  | .DUP_TOPX, oparg => oparg
  | .LOAD_CONST, _ => 1
  | .LOAD_NAME, _ => 1
  | .BUILD_TUPLE, oparg | .BUILD_LIST, oparg | .BUILD_SET, oparg => int32 (1 - oparg)
  | .BUILD_MAP, _ => 1
  | .LOAD_ATTR, _ => 0
  | .COMPARE_OP, _ => -1
  | .IMPORT_NAME, _ => 0
  | .IMPORT_FROM, _ => 1
  | .JUMP_FORWARD, _ | .JUMP_IF_TRUE_OR_POP, _ | .JUMP_IF_FALSE_OR_POP, _ | .JUMP_ABSOLUTE, _ => 0
  | .POP_JUMP_IF_FALSE, _ | .POP_JUMP_IF_TRUE, _ => -1
  | .LOAD_GLOBAL, _ => 1
  | .CONTINUE_LOOP, _ => 0
  | .SETUP_LOOP, _ => 0
  | .SETUP_EXCEPT, _ | .SETUP_FINALLY, _ => 6
  | .LOAD_FAST, _ => 1
  | .STORE_FAST, _ => -1
  | .DELETE_FAST, _ => 0
  | .RAISE_VARARGS, oparg => int32 (-oparg)
  | .CALL_FUNCTION, oparg => -(se31.NARGS oparg)
  | .CALL_FUNCTION_VAR, oparg | .CALL_FUNCTION_KW, oparg => -(se31.NARGS oparg) - 1
  | .CALL_FUNCTION_VAR_KW, oparg => -(se31.NARGS oparg) - 2
  | .MAKE_FUNCTION, oparg => -(se31.NARGS oparg) - Int.land (oparg >>> 16) 0xffff
  | .MAKE_CLOSURE, oparg => -1 - se31.NARGS oparg - Int.land (oparg >>> 16) 0xffff
  | .BUILD_SLICE, oparg => if oparg = 3 then -2 else -1
  | .LOAD_CLOSURE, _ => 1
  | .LOAD_DEREF, _ => 1
  | .STORE_DEREF, _ => -1

/-- The function `opcode_stack_effect` of `se31.c`, for the numbering `label`. -/
def se31.opcode_stack_effect (label : Int → Option se31.Label) : EffectFn :=
  switchEffect label se31.caseReturn

/-- The effect function `f` is one of the three shipped ones, for some numbering. -/
def Shipped (f : EffectFn) : Prop :=
  (∃ label, f = se25.opcode_stack_effect label) ∨
  (∃ label, f = se27.opcode_stack_effect label) ∨
  (∃ label, f = se31.opcode_stack_effect label)

/-- The argument-scaled case labels of `se25.c`. -/
def se25.argScaled : List se25.Label :=
  [.UNPACK_SEQUENCE, .DUP_TOPX, .BUILD_TUPLE, .BUILD_LIST, .RAISE_VARARGS, .CALL_FUNCTION,
   .CALL_FUNCTION_VAR, .CALL_FUNCTION_KW, .CALL_FUNCTION_VAR_KW, .MAKE_FUNCTION, .BUILD_SLICE,
   .MAKE_CLOSURE]

/-- The argument-scaled case labels of `se27.c`. -/
def se27.argScaled : List se27.Label :=
  [.UNPACK_SEQUENCE, .DUP_TOPX, .BUILD_TUPLE, .BUILD_LIST, .BUILD_SET, .RAISE_VARARGS,
   .CALL_FUNCTION, .CALL_FUNCTION_VAR, .CALL_FUNCTION_KW, .CALL_FUNCTION_VAR_KW, .MAKE_FUNCTION,
   .BUILD_SLICE, .MAKE_CLOSURE]

/-- The argument-scaled case labels of `se31.c`. -/
def se31.argScaled : List se31.Label :=
  [.UNPACK_SEQUENCE, .UNPACK_EX, .DUP_TOPX, .BUILD_TUPLE, .BUILD_LIST, .BUILD_SET,
   .RAISE_VARARGS, .CALL_FUNCTION, .CALL_FUNCTION_VAR, .CALL_FUNCTION_KW,
   .CALL_FUNCTION_VAR_KW, .MAKE_FUNCTION, .MAKE_CLOSURE, .BUILD_SLICE]

/-- An excerpt of the opcode numbering of Python 2.5, enough for a test run. -/
def se25.excerpt (n : Int) : Option se25.Label :=
  if n = 1 then some .POP_TOP
  else if n = 92 then some .UNPACK_SEQUENCE
  else if n = 100 then some .LOAD_CONST
  else if n = 131 then some .CALL_FUNCTION
  else if n = 133 then some .BUILD_SLICE
  else none

/-- An excerpt of the opcode numbering of Python 2.7, enough for a test run. -/
def se27.excerpt (n : Int) : Option se27.Label :=
  if n = 1 then some .POP_TOP
  else if n = 92 then some .UNPACK_SEQUENCE
  else if n = 100 then some .LOAD_CONST
  else if n = 131 then some .CALL_FUNCTION
  else if n = 134 then some .MAKE_CLOSURE
  else none

/-- An excerpt of the opcode numbering of Python 3.1, enough for a test run. -/
def se31.excerpt (n : Int) : Option se31.Label :=
  if n = 1 then some .POP_TOP
  else if n = 92 then some .UNPACK_SEQUENCE
  else if n = 94 then some .UNPACK_EX
  else if n = 100 then some .LOAD_CONST
  else if n = 132 then some .MAKE_FUNCTION
  else none

/-! ### Reading the table back from the output -/

/-- Value of a run of decimal digits. -/
def readDigits (cs : List Char) : Nat := cs.foldl (fun n c => 10 * n + (c.toNat - 48)) 0

/-- A non-empty run of decimal digits read as a number. -/
def readNat? (cs : List Char) : Option Nat :=
  if cs ≠ [] ∧ cs.all Char.isDigit = true then some (readDigits cs) else none

/-- Reading a data line as a consumer of the table does: the integer before the
first comma of the line; leading blanks are skipped, then an optional `-` and a
non-empty run of decimal digits are read. -/
def readInt (line : String) : Option Int :=
  let field := (line.data.takeWhile (fun c => c != ',')).dropWhile (fun c => c == ' ')
  if field.head? = some '-' then (readNat? field.tail).map (fun (n : Nat) => -(n : Int))
  else (readNat? field).map (fun (n : Nat) => (n : Int))

/-- An effect function that returns `-100` everywhere and runs `Py_FatalError`
exactly when the argument is `-1`. -/
def minusHundredRejectsArgMinusOne : EffectFn := fun _ a => (-100, decide (a = -1))

end Maynard

namespace Maynard

/-! ## Rendering checks -/

theorem text_valueRow_check : (Printf.valueRow (-1) 23).text = "    -1, # 23,\n" := by decide

theorem text_sentinelRow_check : (Printf.sentinelRow 200).text = "  -100, # 200\n" := by decide

theorem text_header_check : (Printf.header "2.5").text = "# Python 2.5 Stack effects\n\n" := by
  decide

/-! ## Framing: the loop body only appends to the output and to the log -/

theorem callEffect_after (f : EffectFn) (i a : Int) (pre d : State) :
    callEffect f i a (pre.after d) =
      ((callEffect f i a d).1, pre.after (callEffect f i a d).2) := by
  simp [callEffect, State.after]

theorem printf_after (p : Printf) (pre d : State) :
    printf p (pre.after d) = pre.after (printf p d) := by
  simp [printf, State.after]

theorem printRow_after (i : Int) (v : Int) (pre d : State) :
    printRow i (v, pre.after d) = pre.after (printRow i (v, d)) := by
  unfold printRow
  split <;> simp [printf_after]

theorem sampleLoop_after (f : EffectFn) (i e : Int) (pre : State) :
    ∀ (l : List Int) (d : State),
      sampleLoop f i e l (pre.after d) =
        (sampleLoop f i e l d).map (fun r => (r.1, pre.after r.2)) := by
  intro l
  induction l with
  | nil => intro d; simp [sampleLoop]
  | cons a rest ih =>
    intro d
    simp only [sampleLoop, callEffect_after]
    by_cases ha : a = 0
    · simp [ha]
    · by_cases hd : e ≠ (callEffect f i a d).1
      · simp [ha, hd]
      · simp only [ha, hd, if_false]
        exact ih _

theorem reset_eq_after (s : State) :
    ({ s with fatal_error := false } : State) = s.after (start false) := by
  simp [State.after, start]

theorem loopBody_after (f : EffectFn) (h : Int → Bool) (i : Int) (s : State) :
    loopBody f h i s = (loopBody f h i (start false)).map s.after := by
  have h0 : ({ start false with fatal_error := false } : State) = start false := rfl
  unfold loopBody
  rw [reset_eq_after s, h0]
  simp only [callEffect_after]
  by_cases h1 : (callEffect f i 0 (start false)).2.fatal_error = true
  · have h1' : (s.after (callEffect f i 0 (start false)).2).fatal_error = true := h1
    simp [h1, h1', printf_after]
  · have h1' : ¬ (s.after (callEffect f i 0 (start false)).2).fatal_error = true := h1
    rw [if_neg h1', if_neg h1]
    by_cases h2 : h i = true
    · rw [if_pos h2, if_pos h2, sampleLoop_after, Option.map_map, Option.map_map]
      congr 1
      funext r
      simp [printRow_after]
    · rw [if_neg h2, if_neg h2, Option.map_some', printRow_after]

/-- The sampling loop leaves through its zero test or its `break`: it never reads
past the end of an array that contains a `0`. -/
theorem sampleLoop_isSome (f : EffectFn) (i e : Int) :
    ∀ (l : List Int) (s : State), (0 : Int) ∈ l → (sampleLoop f i e l s).isSome = true := by
  intro l
  induction l with
  | nil => intro s h0; simp at h0
  | cons a rest ih =>
    intro s h0
    simp only [sampleLoop]
    by_cases ha : a = 0
    · simp [ha]
    · by_cases hd : e ≠ (callEffect f i a s).1
      · simp [ha, hd]
      · simp only [ha, hd, if_false]
        apply ih
        rcases List.mem_cons.mp h0 with h | h
        · exact absurd h.symm ha
        · exact h

theorem loopBody_isSome (f : EffectFn) (h : Int → Bool) (i : Int) (s : State) :
    (loopBody f h i s).isSome = true := by
  simp only [loopBody]
  by_cases h1 : (callEffect f i 0 { s with fatal_error := false }).2.fatal_error = true
  · rw [if_pos h1]; rfl
  · rw [if_neg h1]
    by_cases h2 : h i = true
    · rw [if_pos h2, Option.isSome_map']
      exact sampleLoop_isSome f i _ _ _ (by decide)
    · rw [if_neg h2]; rfl

theorem loopBody_start (f : EffectFn) (h : Int → Bool) (i : Int) :
    loopBody f h i (start false) = some (bodyOf f h i) := by
  have := loopBody_isSome f h i (start false)
  unfold bodyOf
  cases hl : loopBody f h i (start false) with
  | none => rw [hl] at this; simp at this
  | some d => rfl

theorem loopBody_eq (f : EffectFn) (h : Int → Bool) (i : Int) (s : State) :
    loopBody f h i s = some (s.after (bodyOf f h i)) := by
  rw [loopBody_after, loopBody_start]; rfl

/-! ## The whole sweep as the concatenation of the 256 loop bodies -/

theorem foldlM_loopBody (f : EffectFn) (h : Int → Bool) :
    ∀ (l : List Nat) (s : State),
      ∃ t, l.foldlM (fun s (i : Nat) => loopBody f h (i : Int) s) s = some t ∧
        t.stdout = s.stdout ++ l.flatMap (fun (i : Nat) => (bodyOf f h (i : Int)).stdout) ∧
        t.probes = s.probes ++ l.flatMap (fun (i : Nat) => (bodyOf f h (i : Int)).probes) ∧
        t.fatal_error = l.foldl (fun _ (i : Nat) => (bodyOf f h (i : Int)).fatal_error) s.fatal_error := by
  intro l
  induction l with
  | nil => intro s; exact ⟨s, by simp⟩
  | cons i rest ih =>
    intro s
    obtain ⟨t, h1, h2, h3, h4⟩ := ih (s.after (bodyOf f h (i : Int)))
    refine ⟨t, ?_, ?_, ?_, ?_⟩
    · rw [List.foldlM_cons, loopBody_eq]; exact h1
    · rw [h2]; simp [State.after]
    · rw [h3]; simp [State.after]
    · rw [h4]; simp [State.after]

/-- The sweep always completes, and its result is known in closed form. -/
theorem main_eq (f : EffectFn) (h : Int → Bool) (v : String) (s : State) :
    main f h v s = some
      ⟨(bodyOf f h 255).fatal_error,
       s.stdout ++ .header v :: .openBracket ::
         ((List.range 256).flatMap (fun (i : Nat) => (bodyOf f h (i : Int)).stdout) ++ [.closeBracket]),
       s.probes ++ (List.range 256).flatMap (fun (i : Nat) => (bodyOf f h (i : Int)).probes)⟩ := by
  obtain ⟨t, h1, h2, h3, h4⟩ :=
    foldlM_loopBody f h (List.range 256) (printf .openBracket (printf (.header v) s))
  unfold main
  rw [h1]
  have h5 : t.fatal_error = (bodyOf f h 255).fatal_error := by
    rw [h4, List.range_succ, List.foldl_append]; rfl
  cases t with
  | mk tf tout tp =>
    simp only at h2 h3 h5
    subst h2 h3 h5
    simp [printf]

/-! ## One opcode -/

theorem opargs_to_try_eq : opargs_to_try = samples ++ 0 :: [] := rfl

theorem samples_ne_zero : ∀ a ∈ samples, a ≠ 0 := by decide

theorem bodyOf_rejected (f : EffectFn) (h : Int → Bool) (i : Int) (hr : (f i 0).2 = true) :
    bodyOf f h i = ⟨true, [.sentinelRow i], [⟨i, 0, false⟩]⟩ := by
  have e := loopBody_start f h i
  simp [loopBody, callEffect, start, hr, printf] at e
  exact e.symm

theorem bodyOf_noarg (f : EffectFn) (h : Int → Bool) (i : Int) (hr : (f i 0).2 = false)
    (hn : h i = false) :
    bodyOf f h i =
      printRow i ((f i 0).1, ⟨false, [], [⟨i, 0, false⟩, ⟨i, 0, false⟩]⟩) := by
  have e := loopBody_start f h i
  simp [loopBody, callEffect, start, hr, hn] at e
  exact e.symm

theorem bodyOf_arg (f : EffectFn) (h : Int → Bool) (i : Int) (hr : (f i 0).2 = false)
    (ha : h i = true) :
    (sampleLoop f i (f i 0).1 opargs_to_try ⟨false, [], [⟨i, 0, false⟩]⟩).map (printRow i) =
      some (bodyOf f h i) := by
  have e := loopBody_start f h i
  simp only [loopBody, callEffect, start, hr, ha, Bool.or_false, if_true, List.nil_append,
    Bool.false_eq_true, if_false] at e
  exact e

theorem dataRows_append (a b : List Printf) : dataRows (a ++ b) = dataRows a ++ dataRows b := by
  simp [dataRows]

theorem dataRows_printRow (i v : Int) (t : State) :
    dataRows (printRow i (v, t)).stdout = dataRows t.stdout ++ [(v, i)] := by
  unfold printRow
  by_cases hv : v ≠ NOTFIXED
  · simp [hv, printf, dataRows, Printf.row?]
  · have hv' : v = NOTFIXED := not_not.mp hv
    simp [hv', printf, dataRows, Printf.row?]

theorem printRow_length (i v : Int) (t : State) :
    (printRow i (v, t)).stdout.length = t.stdout.length + 1 := by
  unfold printRow
  by_cases hv : v ≠ NOTFIXED
  · simp [hv, printf]
  · have hv' : v = NOTFIXED := not_not.mp hv
    simp [hv', printf]

/-- Value computed by the sampling loop: the baseline if every sample agrees with
it, `NOTFIXED` otherwise; the loop prints nothing. -/
theorem sampleLoop_value (f : EffectFn) (i e : Int) :
    ∀ (pre post : List Int) (s : State), (∀ a ∈ pre, a ≠ 0) →
      ∃ t, sampleLoop f i e (pre ++ 0 :: post) s =
          some (if ∀ a ∈ pre, (f i a).1 = e then e else NOTFIXED, t) ∧
        t.stdout = s.stdout := by
  intro pre
  induction pre with
  | nil => intro post s _; exact ⟨s, by simp [sampleLoop]⟩
  | cons a rest ih =>
    intro post s hz
    have ha : a ≠ 0 := hz a (List.mem_cons_self _ _)
    have hrest : ∀ x ∈ rest, x ≠ 0 := fun x hx => hz x (List.mem_cons_of_mem _ hx)
    by_cases hd : e = (f i a).1
    · obtain ⟨t, h1, h2⟩ := ih post (callEffect f i a s).2 hrest
      refine ⟨t, ?_, ?_⟩
      · simp only [List.cons_append, sampleLoop, if_neg ha]
        have hd' : ¬ (e ≠ (callEffect f i a s).1) := by simpa [callEffect] using hd
        rw [if_neg hd', List.append_eq, h1]
        simp [hd.symm]
      · rw [h2]; rfl
    · refine ⟨(callEffect f i a s).2, ?_, rfl⟩
      simp only [List.cons_append, sampleLoop, if_neg ha]
      have hd' : e ≠ (callEffect f i a s).1 := by simpa [callEffect] using hd
      rw [if_pos hd']
      have : ¬ ∀ x ∈ a :: rest, (f i x).1 = e := by
        intro hall
        exact hd (hall a (List.mem_cons_self _ _)).symm
      rw [if_neg this]

theorem valueOf_of_rows (f : EffectFn) (h : Int → Bool) (i v : Int)
    (hrows : dataRows (bodyOf f h i).stdout = [(v, i)]) : valueOf f h i = v := by
  simp [valueOf, entry, hrows]

/-- The loop body prints exactly one line, the data row of its opcode. -/
theorem bodyOf_row (f : EffectFn) (h : Int → Bool) (i : Int) :
    (bodyOf f h i).stdout.length = 1 ∧
      dataRows (bodyOf f h i).stdout = [(valueOf f h i, i)] := by
  have key : ∃ v, (bodyOf f h i).stdout.length = 1 ∧
      dataRows (bodyOf f h i).stdout = [(v, i)] := by
    by_cases hr : (f i 0).2 = true
    · refine ⟨NOTFIXED, ?_⟩
      rw [bodyOf_rejected f h i hr]
      simp [dataRows, Printf.row?]
    · have hr' : (f i 0).2 = false := by simpa using hr
      by_cases ha : h i = true
      · obtain ⟨t, h1, h2⟩ := sampleLoop_value f i (f i 0).1 samples []
          ⟨false, [], [⟨i, 0, false⟩]⟩ samples_ne_zero
        have e := bodyOf_arg f h i hr' ha
        rw [opargs_to_try_eq, h1, Option.map_some', Option.some.injEq] at e
        refine ⟨if ∀ a ∈ samples, (f i a).1 = (f i 0).1 then (f i 0).1 else NOTFIXED, ?_, ?_⟩
        · rw [← e, printRow_length, h2]; rfl
        · rw [← e, dataRows_printRow, h2]; rfl
      · have hn : h i = false := by simpa using ha
        refine ⟨(f i 0).1, ?_, ?_⟩
        · rw [bodyOf_noarg f h i hr' hn, printRow_length]; rfl
        · rw [bodyOf_noarg f h i hr' hn, dataRows_printRow]; rfl
  obtain ⟨v, h1, h2⟩ := key
  exact ⟨h1, by rw [valueOf_of_rows f h i v h2]; exact h2⟩

theorem valueOf_rejected (f : EffectFn) (h : Int → Bool) (i : Int) (hr : (f i 0).2 = true) :
    valueOf f h i = NOTFIXED := by
  apply valueOf_of_rows
  rw [bodyOf_rejected f h i hr]
  simp [dataRows, Printf.row?]

theorem valueOf_noarg (f : EffectFn) (h : Int → Bool) (i : Int) (hr : (f i 0).2 = false)
    (hn : h i = false) : valueOf f h i = (f i 0).1 := by
  apply valueOf_of_rows
  rw [bodyOf_noarg f h i hr hn, dataRows_printRow]; rfl

theorem valueOf_arg (f : EffectFn) (h : Int → Bool) (i : Int) (hr : (f i 0).2 = false)
    (ha : h i = true) :
    valueOf f h i = if ∀ a ∈ samples, (f i a).1 = (f i 0).1 then (f i 0).1 else NOTFIXED := by
  apply valueOf_of_rows
  obtain ⟨t, h1, h2⟩ := sampleLoop_value f i (f i 0).1 samples []
    ⟨false, [], [⟨i, 0, false⟩]⟩ samples_ne_zero
  have e := bodyOf_arg f h i hr ha
  rw [opargs_to_try_eq, h1, Option.map_some', Option.some.injEq] at e
  rw [← e, dataRows_printRow, h2]; rfl

theorem flatMap_rows (f : EffectFn) (h : Int → Bool) :
    ∀ l : List Nat, dataRows (l.flatMap (fun (i : Nat) => (bodyOf f h (i : Int)).stdout)) =
      l.map (fun (i : Nat) => (valueOf f h (i : Int), (i : Int))) := by
  intro l
  induction l with
  | nil => rfl
  | cons i rest ih =>
    rw [List.flatMap_cons, dataRows_append, ih, (bodyOf_row f h (i : Int)).2]; rfl

/-- The data rows of a finished sweep: one per opcode `0..255`, in order. -/
theorem dataRows_main (f : EffectFn) (h : Int → Bool) (v : String) (s t : State)
    (hm : main f h v s = some t) :
    dataRows t.stdout = dataRows s.stdout ++
      (List.range 256).map (fun (i : Nat) => (valueOf f h (i : Int), (i : Int))) := by
  rw [main_eq, Option.some.injEq] at hm
  subst hm
  show dataRows (s.stdout ++ _) = _
  rw [dataRows_append]
  congr 1
  show dataRows ([Printf.header v, Printf.openBracket] ++ (_ ++ _)) = _
  rw [dataRows_append, dataRows_append, flatMap_rows]
  simp [dataRows, Printf.row?]

/-- The table entry of opcode `o` in a sweep run from program start. -/
theorem entry_main (f : EffectFn) (h : Int → Bool) (v : String) (b : Bool) (t : State)
    (hm : main f h v (start b) = some t) (o : Nat) (ho : o < 256) :
    entry t.stdout o = some (valueOf f h (o : Int)) := by
  unfold entry
  rw [dataRows_main f h v _ t hm]
  simp [start, dataRows, ho]

theorem bodyOf_stdout (f : EffectFn) (h : Int → Bool) (i : Int) :
    ∃ p, (bodyOf f h i).stdout = [p] ∧ p.row? = some (valueOf f h i, i) := by
  obtain ⟨h1, h2⟩ := bodyOf_row f h i
  obtain ⟨p, hp⟩ := List.length_eq_one.mp h1
  refine ⟨p, hp, ?_⟩
  rw [hp] at h2
  cases hrow : p.row? with
  | none => simp [dataRows, hrow] at h2
  | some r => simpa [dataRows, hrow] using h2

theorem flatMap_eq_map {α : Type} (g : Nat → List α) (k : Nat → α) (hk : ∀ i, g i = [k i]) :
    ∀ l : List Nat, l.flatMap g = l.map k := by
  intro l
  induction l with
  | nil => rfl
  | cons i rest ih => rw [List.flatMap_cons, ih, hk]; rfl

/-! ## The log of calls -/

theorem printRow_probes (i : Int) (r : Int × State) : (printRow i r).probes = r.2.probes := by
  unfold printRow
  split <;> rfl

theorem sampleLoop_probes_opcode (f : EffectFn) (i e : Int) :
    ∀ (l : List Int) (s : State) (r : Int × State), sampleLoop f i e l s = some r →
      (∀ p ∈ s.probes, p.opcode = i) → ∀ p ∈ r.2.probes, p.opcode = i := by
  intro l
  induction l with
  | nil => intro s r hr; simp [sampleLoop] at hr
  | cons a rest ih =>
    intro s r hr hs
    have hs' : ∀ p ∈ (callEffect f i a s).2.probes, p.opcode = i := by
      intro p hp
      simp only [callEffect, List.mem_append, List.mem_singleton] at hp
      rcases hp with hp | hp
      · exact hs p hp
      · rw [hp]
    simp only [sampleLoop] at hr
    by_cases ha : a = 0
    · rw [if_pos ha, Option.some.injEq] at hr
      subst hr
      exact hs
    · rw [if_neg ha] at hr
      by_cases hd : e ≠ (callEffect f i a s).1
      · rw [if_pos hd, Option.some.injEq] at hr
        subst hr
        exact hs'
      · rw [if_neg hd] at hr
        exact ih _ r hr hs'

/-- Every call made by the loop body of opcode `i` is a call for opcode `i`. -/
theorem bodyOf_probes_opcode (f : EffectFn) (h : Int → Bool) (i : Int) :
    ∀ p ∈ (bodyOf f h i).probes, p.opcode = i := by
  by_cases hr : (f i 0).2 = true
  · rw [bodyOf_rejected f h i hr]
    intro p hp
    simp only [List.mem_singleton] at hp
    rw [hp]
  · have hr' : (f i 0).2 = false := by simpa using hr
    by_cases ha : h i = true
    · have e := bodyOf_arg f h i hr' ha
      cases hl : sampleLoop f i (f i 0).1 opargs_to_try ⟨false, [], [⟨i, 0, false⟩]⟩ with
      | none => rw [hl] at e; simp at e
      | some r =>
        rw [hl, Option.map_some', Option.some.injEq] at e
        rw [← e, printRow_probes]
        apply sampleLoop_probes_opcode f i _ _ _ r hl
        intro p hp
        simp only [List.mem_singleton] at hp
        rw [hp]
    · have hn : h i = false := by simpa using ha
      rw [bodyOf_noarg f h i hr' hn, printRow_probes]
      intro p hp
      simp only [List.mem_cons, List.mem_singleton, List.mem_nil_iff, or_false, or_self] at hp
      rw [hp]

theorem filter_flatMap_probes (f : EffectFn) (h : Int → Bool) (o : Nat) :
    ∀ l : List Nat, l.Nodup →
      (l.flatMap (fun (i : Nat) => (bodyOf f h (i : Int)).probes)).filter
          (fun p => decide (p.opcode = (o : Int))) =
        if o ∈ l then (bodyOf f h (o : Int)).probes else [] := by
  intro l
  induction l with
  | nil => intro _; rfl
  | cons i rest ih =>
    intro hnd
    have hi : i ∉ rest := (List.nodup_cons.mp hnd).1
    rw [List.flatMap_cons, List.filter_append, ih (List.nodup_cons.mp hnd).2]
    by_cases hio : i = o
    · subst hio
      have hall : (bodyOf f h (i : Int)).probes.filter (fun p => decide (p.opcode = (i : Int))) =
          (bodyOf f h (i : Int)).probes := by
        rw [List.filter_eq_self]
        intro p hp
        simpa using bodyOf_probes_opcode f h (i : Int) p hp
      rw [hall, if_neg hi, if_pos (List.mem_cons_self _ _), List.append_nil]
    · have hnone : (bodyOf f h (i : Int)).probes.filter (fun p => decide (p.opcode = (o : Int))) =
          [] := by
        rw [List.filter_eq_nil_iff]
        intro p hp
        have := bodyOf_probes_opcode f h (i : Int) p hp
        simp only [decide_eq_true_eq, this]
        intro hc
        exact hio (Int.ofNat.inj hc)
      rw [hnone, List.nil_append]
      by_cases hor : o ∈ rest
      · rw [if_pos hor, if_pos (List.mem_cons_of_mem _ hor)]
      · have : o ∉ i :: rest := by
          intro hc
          rcases List.mem_cons.mp hc with hc | hc
          · exact hio hc.symm
          · exact hor hc
        rw [if_neg hor, if_neg this]

/-- In a sweep run from program start, the calls made for opcode `o` are those of
the loop body of `o`. -/
theorem filter_probes_main (f : EffectFn) (h : Int → Bool) (v : String) (b : Bool) (t : State)
    (hm : main f h v (start b) = some t) (o : Nat) (ho : o < 256) :
    t.probes.filter (fun p => decide (p.opcode = (o : Int))) = (bodyOf f h (o : Int)).probes := by
  rw [main_eq, Option.some.injEq] at hm
  subst hm
  show List.filter _ ([] ++ _) = _
  rw [List.nil_append, filter_flatMap_probes f h o _ (List.nodup_range 256),
    if_pos (List.mem_range.mpr ho)]

/-- The arguments tried by the sampling loop: the samples up to and including
the first one whose result differs from `e`. -/
theorem sampleLoop_args (f : EffectFn) (i e : Int) :
    ∀ (pre post : List Int) (s : State) (r : Int × State), (∀ a ∈ pre, a ≠ 0) →
      sampleLoop f i e (pre ++ 0 :: post) s = some r →
      r.2.probes.map Probe.oparg = s.probes.map Probe.oparg ++
        (pre.takeWhile (fun a => decide ((f i a).1 = e)) ++
          (pre.dropWhile (fun a => decide ((f i a).1 = e))).take 1) := by
  intro pre
  induction pre with
  | nil =>
    intro post s r _ hr
    simp only [List.nil_append, sampleLoop, if_true, Option.some.injEq] at hr
    subst hr
    simp
  | cons a rest ih =>
    intro post s r hz hr
    have ha : a ≠ 0 := hz a (List.mem_cons_self _ _)
    have hrest : ∀ x ∈ rest, x ≠ 0 := fun x hx => hz x (List.mem_cons_of_mem _ hx)
    simp only [List.cons_append, sampleLoop, if_neg ha] at hr
    by_cases hd : e ≠ (callEffect f i a s).1
    · rw [if_pos hd, Option.some.injEq] at hr
      subst hr
      have hne : ¬ (f i a).1 = e := fun hc => hd hc.symm
      simp [callEffect, List.takeWhile_cons, List.dropWhile_cons, hne]
    · rw [if_neg hd] at hr
      have heq : (f i a).1 = e := (not_not.mp hd).symm
      rw [ih post _ r hrest hr]
      simp [callEffect, List.takeWhile_cons, List.dropWhile_cons, heq]

/-! ## The flag before each call -/

theorem flagsFrom_snoc (f : EffectFn) (x : Probe) :
    ∀ (B : List Probe) (b : Bool),
      flagsFrom f b (B ++ [x]) ↔
        flagsFrom f b B ∧ x.flagBefore = (b || B.any (fun q => (f q.opcode q.oparg).2)) := by
  intro B
  induction B with
  | nil => intro b; simp [flagsFrom]
  | cons p rest ih =>
    intro b
    simp only [List.cons_append, flagsFrom, List.append_eq, ih, List.any_cons, Bool.or_assoc,
      and_assoc]

theorem flagsFrom_split (f : EffectFn) (p : Probe) (post : List Probe) :
    ∀ (pre : List Probe) (b : Bool), flagsFrom f b (pre ++ p :: post) →
      p.flagBefore = (b || pre.any (fun q => (f q.opcode q.oparg).2)) := by
  intro pre
  induction pre with
  | nil => intro b hb; simpa [flagsFrom] using hb.1
  | cons q rest ih =>
    intro b hb
    rw [List.cons_append] at hb
    rw [ih _ hb.2, List.any_cons, Bool.or_assoc]

theorem sampleLoop_flags (f : EffectFn) (i e : Int) :
    ∀ (l : List Int) (s : State) (r : Int × State), sampleLoop f i e l s = some r →
      flagsFrom f false s.probes →
      s.fatal_error = s.probes.any (fun q => (f q.opcode q.oparg).2) →
      flagsFrom f false r.2.probes := by
  intro l
  induction l with
  | nil => intro s r hr; simp [sampleLoop] at hr
  | cons a rest ih =>
    intro s r hr h1 h2
    have h1' : flagsFrom f false (callEffect f i a s).2.probes := by
      simp only [callEffect]
      rw [flagsFrom_snoc]
      exact ⟨h1, by simpa using h2⟩
    have h2' : (callEffect f i a s).2.fatal_error =
        (callEffect f i a s).2.probes.any (fun q => (f q.opcode q.oparg).2) := by
      simp [callEffect, h2]
    simp only [sampleLoop] at hr
    by_cases ha : a = 0
    · rw [if_pos ha, Option.some.injEq] at hr
      subst hr
      exact h1
    · rw [if_neg ha] at hr
      by_cases hd : e ≠ (callEffect f i a s).1
      · rw [if_pos hd, Option.some.injEq] at hr
        subst hr
        exact h1'
      · rw [if_neg hd] at hr
        exact ih _ r hr h1' h2'

/-- Within the calls for one opcode the flag starts `false` and is only set by
rejected calls. -/
theorem bodyOf_flags (f : EffectFn) (h : Int → Bool) (i : Int) :
    flagsFrom f false (bodyOf f h i).probes := by
  by_cases hr : (f i 0).2 = true
  · rw [bodyOf_rejected f h i hr]
    simp [flagsFrom]
  · have hr' : (f i 0).2 = false := by simpa using hr
    by_cases ha : h i = true
    · have e := bodyOf_arg f h i hr' ha
      cases hl : sampleLoop f i (f i 0).1 opargs_to_try ⟨false, [], [⟨i, 0, false⟩]⟩ with
      | none => rw [hl] at e; simp at e
      | some r =>
        rw [hl, Option.map_some', Option.some.injEq] at e
        rw [← e, printRow_probes]
        apply sampleLoop_flags f i _ _ _ r hl
        · simp [flagsFrom]
        · simp [hr']
    · have hn : h i = false := by simpa using ha
      rw [bodyOf_noarg f h i hr' hn, printRow_probes]
      simp [flagsFrom, hr']

/-- Every call of a sweep is a call for one of the opcodes `0..255`. -/
theorem probes_main_opcode (f : EffectFn) (h : Int → Bool) (v : String) (b : Bool) (t : State)
    (hm : main f h v (start b) = some t) :
    ∀ p ∈ t.probes, ∃ o : Nat, o < 256 ∧ p.opcode = (o : Int) := by
  rw [main_eq, Option.some.injEq] at hm
  subst hm
  intro p hp
  have hp' : p ∈ (List.range 256).flatMap (fun (i : Nat) => (bodyOf f h (i : Int)).probes) := by
    simpa [start] using hp
  obtain ⟨o, ho, hpo⟩ := List.mem_flatMap.mp hp'
  exact ⟨o, List.mem_range.mp ho, bodyOf_probes_opcode f h (o : Int) p hpo⟩

/-- The bytes of two outputs in a row are the bytes of the first followed by
those of the second. -/
theorem render_append (a b : List Printf) : render (a ++ b) = render a ++ render b := by
  apply String.ext
  simp [render, String.join_eq]

/-! ## Locality: the loop body of `i` only looks at `f i` and `HAS_ARG i` -/

theorem callEffect_congr (f g : EffectFn) (i : Int) (hfg : ∀ a, f i a = g i a) (a : Int)
    (s : State) : callEffect f i a s = callEffect g i a s := by
  simp only [callEffect, hfg]

theorem sampleLoop_congr (f g : EffectFn) (i e : Int) (hfg : ∀ a, f i a = g i a) :
    ∀ (l : List Int) (s : State), sampleLoop f i e l s = sampleLoop g i e l s := by
  intro l
  induction l with
  | nil => intro s; rfl
  | cons a rest ih =>
    intro s
    simp only [sampleLoop, callEffect_congr f g i hfg, ih]

theorem bodyOf_congr (f g : EffectFn) (h k : Int → Bool) (i : Int)
    (hfg : ∀ a, f i a = g i a) (hhk : h i = k i) : bodyOf f h i = bodyOf g k i := by
  unfold bodyOf loopBody
  simp only [callEffect_congr f g i hfg, sampleLoop_congr f g i _ hfg, hhk]

/-! ## The claims -/

/-- C1: for every effect function and every `HAS_ARG`, the sweep completes and
prints, between the header and `[` lines and the closing `]` line, exactly 256
lines; for every `i` in `0..255` the `i`-th of them (0-based) is a data row
annotated with opcode `i`, so no opcode is skipped or repeated, rejected opcodes
included. -/
theorem C1_one_row_per_opcode (f : EffectFn) (HAS_ARG : Int → Bool) (v : String) (b : Bool) :
    ∃ t rows, main f HAS_ARG v (start b) = some t ∧
      t.stdout = Printf.header v :: Printf.openBracket :: (rows ++ [Printf.closeBracket]) ∧
      rows.length = 256 ∧ (dataRows t.stdout).length = 256 ∧
      ∀ i : Fin 256, ∃ val : Int, (rows[i.val]?).bind Printf.row? = some (val, (i.val : Int)) ∧
        (dataRows t.stdout)[i.val]? = some (val, (i.val : Int)) := by
  have hk : ∀ i : Nat, (bodyOf f HAS_ARG (i : Int)).stdout =
      [(bodyOf f HAS_ARG (i : Int)).stdout.headD Printf.openBracket] := by
    intro i
    obtain ⟨p, hp, _⟩ := bodyOf_stdout f HAS_ARG (i : Int)
    rw [hp]; rfl
  have hrows := dataRows_main f HAS_ARG v (start b) _ (main_eq f HAS_ARG v (start b))
  refine ⟨_, (List.range 256).map
      (fun i : Nat => (bodyOf f HAS_ARG (i : Int)).stdout.headD Printf.openBracket),
    main_eq f HAS_ARG v (start b), ?_, ?_, ?_, ?_⟩
  · show [] ++ _ = _
    rw [flatMap_eq_map _ _ hk]; rfl
  · simp
  · rw [hrows]; simp [start, dataRows]
  · intro i
    refine ⟨valueOf f HAS_ARG (i.val : Int), ?_, ?_⟩
    · obtain ⟨p, hp, hrow⟩ := bodyOf_stdout f HAS_ARG (i.val : Int)
      rw [List.getElem?_map, List.getElem?_range i.isLt, Option.map_some', hp]
      exact hrow
    · rw [hrows]
      simp [start, dataRows, i.isLt]

/-- C2: if the baseline call `opcode_stack_effect(o, 0)` runs `Py_FatalError`, the
table entry of `o` is the sentinel `-100`, whatever `HAS_ARG(o)` is and whatever
value the call returned. -/
theorem C2_rejected_is_sentinel (f : EffectFn) (HAS_ARG : Int → Bool) (v : String) (b : Bool)
    (o : Nat) (ho : o < 256) (hrej : (f o 0).2 = true) :
    ∃ t, main f HAS_ARG v (start b) = some t ∧ entry t.stdout o = some (-100) := by
  refine ⟨_, main_eq f HAS_ARG v (start b), ?_⟩
  rw [entry_main f HAS_ARG v b _ (main_eq f HAS_ARG v (start b)) o ho,
    valueOf_rejected f HAS_ARG o hrej]
  rfl

/-- Instance at `rejects200`, opcode 200: the rejected opcode gets the row `-100`. -/
theorem C2_rejected_is_sentinel_witness :
    200 < 256 ∧ (rejects200 (200 : Nat) 0).2 = true ∧
      ∃ t, main rejects200 (fun _ => true) "2.7" (start false) = some t ∧
        entry t.stdout 200 = some (-100) :=
  ⟨by decide, by decide,
    C2_rejected_is_sentinel rejects200 (fun _ => true) "2.7" false 200 (by decide) (by decide)⟩

/-- C3 (as amended): for an opcode `o` in `0..255` with `HAS_ARG(o)` true whose
baseline call is not rejected, if the effect function returns one and the same
value `c` at argument 0 and at every argument of the sample set, then the table
entry of `o` is `c`. -/
theorem C3_constant_with_baseline (f : EffectFn) (HAS_ARG : Int → Bool) (v : String) (b : Bool)
    (o : Nat) (ho : o < 256) (harg : HAS_ARG o = true) (hacc : (f o 0).2 = false) (c : Int)
    (hbase : (f o 0).1 = c)
    (hconst : ∀ a ∈ [-1, 1, 2, 3, 4, 5, 6, 7, 8, 9, 10, 256, 1000, (65535 : Int)], (f o a).1 = c) :
    ∃ t, main f HAS_ARG v (start b) = some t ∧ entry t.stdout o = some c := by
  refine ⟨_, main_eq f HAS_ARG v (start b), ?_⟩
  rw [entry_main f HAS_ARG v b _ (main_eq f HAS_ARG v (start b)) o ho,
    valueOf_arg f HAS_ARG o hacc harg]
  have : ∀ a ∈ samples, (f o a).1 = (f o 0).1 := by
    intro a ha
    rw [hbase]
    exact hconst a ha
  rw [if_pos this, hbase]

/-- Instance at `plusOne`, opcode 100 with `HAS_ARG` true: the entry is `1`. -/
theorem C3_constant_with_baseline_witness :
    100 < 256 ∧ (fun _ => true) ((100 : Nat) : Int) = true ∧
      (plusOne (100 : Nat) 0).2 = false ∧ (plusOne (100 : Nat) 0).1 = 1 ∧
      (∀ a ∈ [-1, 1, 2, 3, 4, 5, 6, 7, 8, 9, 10, 256, 1000, (65535 : Int)],
        (plusOne (100 : Nat) a).1 = 1) ∧
      ∃ t, main plusOne (fun _ => true) "2.5" (start false) = some t ∧
        entry t.stdout 100 = some 1 :=
  ⟨by decide, rfl, rfl, rfl, by decide,
    C3_constant_with_baseline plusOne (fun _ => true) "2.5" false 100 (by decide) rfl rfl 1 rfl
      (by decide)⟩

/-- Counterexample to C3 as stated: `fiveThenThree` returns `3` at every argument of the
sample set and is never rejected, `HAS_ARG(7)` holds, yet the entry of opcode 7
is `-100`, not `3`, because the baseline at argument 0 is `5`. -/
theorem C3_counterexample :
    (∀ a ∈ [-1, 1, 2, 3, 4, 5, 6, 7, 8, 9, 10, 256, 1000, (65535 : Int)],
        (fiveThenThree 7 a).1 = 3) ∧
      (fiveThenThree 7 0).2 = false ∧
      ∃ t, main fiveThenThree (fun _ => true) "2.5" (start false) = some t ∧
        entry t.stdout 7 = some (-100) ∧ entry t.stdout 7 ≠ some 3 := by
  refine ⟨by decide, rfl, _, main_eq fiveThenThree (fun _ => true) "2.5" (start false), ?_⟩
  rw [entry_main fiveThenThree (fun _ => true) "2.5" false _
    (main_eq fiveThenThree (fun _ => true) "2.5" (start false)) 7 (by decide),
    valueOf_arg fiveThenThree (fun _ => true) _ rfl rfl]
  decide

/-- C4: for an opcode `o` in `0..255` with `HAS_ARG(o)` true whose baseline call is
not rejected, if some argument `a` of the sample set gives
`opcode_stack_effect(o, a) != opcode_stack_effect(o, 0)`, the table entry of `o`
is the sentinel `-100`. -/
theorem C4_divergence_is_sentinel (f : EffectFn) (HAS_ARG : Int → Bool) (v : String) (b : Bool)
    (o : Nat) (ho : o < 256) (harg : HAS_ARG o = true) (hacc : (f o 0).2 = false)
    (hdiv : ∃ a ∈ [-1, 1, 2, 3, 4, 5, 6, 7, 8, 9, 10, 256, 1000, (65535 : Int)],
      (f o a).1 ≠ (f o 0).1) :
    ∃ t, main f HAS_ARG v (start b) = some t ∧ entry t.stdout o = some (-100) := by
  refine ⟨_, main_eq f HAS_ARG v (start b), ?_⟩
  rw [entry_main f HAS_ARG v b _ (main_eq f HAS_ARG v (start b)) o ho,
    valueOf_arg f HAS_ARG o hacc harg]
  have : ¬ ∀ a ∈ samples, (f o a).1 = (f o 0).1 := by
    intro hall
    obtain ⟨a, ha, hne⟩ := hdiv
    exact hne (hall a ha)
  rw [if_neg this]
  rfl

/-- Instance at the effect `1 - oparg`, opcode 131 with `HAS_ARG` true: the entry is `-100`. -/
theorem C4_divergence_is_sentinel_witness :
    131 < 256 ∧ (fun _ => true) ((131 : Nat) : Int) = true ∧
      (oneMinusArg (131 : Nat) 0).2 = false ∧
      (∃ a ∈ [-1, 1, 2, 3, 4, 5, 6, 7, 8, 9, 10, 256, 1000, (65535 : Int)],
        (oneMinusArg (131 : Nat) a).1 ≠ (oneMinusArg (131 : Nat) 0).1) ∧
      ∃ t, main oneMinusArg (fun _ => true) "2.5" (start false) = some t ∧
        entry t.stdout 131 = some (-100) :=
  ⟨by decide, rfl, rfl, by decide,
    C4_divergence_is_sentinel oneMinusArg (fun _ => true) "2.5" false 131 (by decide) rfl rfl
      (by decide)⟩

/-- C5: for an opcode `o` in `0..255` with `HAS_ARG(o)` false whose baseline call
is not rejected, the table entry of `o` is exactly `opcode_stack_effect(o, 0)`, and
every call made for `o` during the sweep has argument 0 (so what the function
would return at a non-zero argument is never observed). -/
theorem C5_no_arg_uses_baseline (f : EffectFn) (HAS_ARG : Int → Bool) (v : String) (b : Bool)
    (o : Nat) (ho : o < 256) (hno : HAS_ARG o = false) (hacc : (f o 0).2 = false) :
    ∃ t, main f HAS_ARG v (start b) = some t ∧ entry t.stdout o = some (f o 0).1 ∧
      ∀ p ∈ t.probes, p.opcode = (o : Int) → p.oparg = 0 := by
  have hm := main_eq f HAS_ARG v (start b)
  refine ⟨_, hm, ?_, ?_⟩
  · rw [entry_main f HAS_ARG v b _ hm o ho, valueOf_noarg f HAS_ARG o hacc hno]
  · intro p hp hop
    have hmem : p ∈ (bodyOf f HAS_ARG (o : Int)).probes := by
      rw [← filter_probes_main f HAS_ARG v b _ hm o ho]
      exact List.mem_filter.mpr ⟨hp, by simpa using hop⟩
    rw [bodyOf_noarg f HAS_ARG o hacc hno, printRow_probes] at hmem
    simp only [List.mem_cons, List.mem_singleton, List.mem_nil_iff, or_false, or_self] at hmem
    rw [hmem]

/-- Instance at the effect `-1`, opcode 23 with `HAS_ARG` false: the entry is `-1`. -/
theorem C5_no_arg_uses_baseline_witness :
    23 < 256 ∧ (fun _ => false) ((23 : Nat) : Int) = false ∧ (minusOne (23 : Nat) 0).2 = false ∧
      ∃ t, main minusOne (fun _ => false) "2.5" (start false) = some t ∧
        entry t.stdout 23 = some (-1) ∧
        ∀ p ∈ t.probes, p.opcode = ((23 : Nat) : Int) → p.oparg = 0 :=
  ⟨by decide, rfl, rfl,
    C5_no_arg_uses_baseline minusOne (fun _ => false) "2.5" false 23 (by decide) rfl rfl⟩

/-- C6: for an opcode `o` in `0..255` with `HAS_ARG(o)` true whose baseline call is
not rejected, the arguments of the calls made for `o`, in order, are the baseline
argument 0 followed by the samples of `[-1,1,2,...,10,256,1000,65535]` up to and
including the first one whose result differs from the baseline; nothing after the
first diverging sample is tried, and if no sample diverges all 14 are tried once
each, in that order. -/
theorem C6_sampling_order (f : EffectFn) (HAS_ARG : Int → Bool) (v : String) (b : Bool)
    (o : Nat) (ho : o < 256) (harg : HAS_ARG o = true) (hacc : (f o 0).2 = false) :
    ∃ t, main f HAS_ARG v (start b) = some t ∧
      argsFor t.probes o = 0 ::
        (List.takeWhile (fun a => decide ((f o a).1 = (f o 0).1))
            [-1, 1, 2, 3, 4, 5, 6, 7, 8, 9, 10, 256, 1000, 65535] ++
          (List.dropWhile (fun a => decide ((f o a).1 = (f o 0).1))
            [-1, 1, 2, 3, 4, 5, 6, 7, 8, 9, 10, 256, 1000, 65535]).take 1) ∧
      ((∀ a ∈ [-1, 1, 2, 3, 4, 5, 6, 7, 8, 9, 10, 256, 1000, (65535 : Int)],
          (f o a).1 = (f o 0).1) →
        argsFor t.probes o = [0, -1, 1, 2, 3, 4, 5, 6, 7, 8, 9, 10, 256, 1000, 65535]) := by
  obtain ⟨t, hm⟩ : ∃ t, main f HAS_ARG v (start b) = some t := ⟨_, main_eq f HAS_ARG v (start b)⟩
  have key : argsFor t.probes o = 0 ::
        (List.takeWhile (fun a => decide ((f o a).1 = (f o 0).1)) samples ++
          (List.dropWhile (fun a => decide ((f o a).1 = (f o 0).1)) samples).take 1) := by
    unfold argsFor
    rw [filter_probes_main f HAS_ARG v b t hm o ho]
    have e := bodyOf_arg f HAS_ARG o hacc harg
    cases hl : sampleLoop f o (f o 0).1 opargs_to_try ⟨false, [], [⟨o, 0, false⟩]⟩ with
    | none => rw [hl] at e; simp at e
    | some r =>
      rw [hl, Option.map_some', Option.some.injEq] at e
      rw [← e, printRow_probes,
        sampleLoop_args f o (f o 0).1 samples [] _ r samples_ne_zero hl]
      rfl
  refine ⟨t, hm, key, ?_⟩
  intro hall
  rw [key]
  have hall' : ∀ a ∈ samples, (fun a => decide ((f o a).1 = (f o 0).1)) a = true := by
    intro a ha
    simpa using hall a ha
  rw [List.takeWhile_eq_self_iff.mpr hall', List.dropWhile_eq_nil_iff.mpr hall']
  rfl

/-- Instance at the effect `1 - oparg`, opcode 131 with `HAS_ARG` true. -/
theorem C6_sampling_order_witness :
    131 < 256 ∧ (fun _ => true) ((131 : Nat) : Int) = true ∧
      (oneMinusArg (131 : Nat) 0).2 = false ∧
      ∃ t, main oneMinusArg (fun _ => true) "2.5" (start false) = some t ∧
        argsFor t.probes (131 : Nat) = 0 ::
          (List.takeWhile
              (fun a => decide ((oneMinusArg (131 : Nat) a).1 = (oneMinusArg (131 : Nat) 0).1))
              [-1, 1, 2, 3, 4, 5, 6, 7, 8, 9, 10, 256, 1000, 65535] ++
            (List.dropWhile
              (fun a => decide ((oneMinusArg (131 : Nat) a).1 = (oneMinusArg (131 : Nat) 0).1))
              [-1, 1, 2, 3, 4, 5, 6, 7, 8, 9, 10, 256, 1000, 65535]).take 1) ∧
        ((∀ a ∈ [-1, 1, 2, 3, 4, 5, 6, 7, 8, 9, 10, 256, 1000, (65535 : Int)],
            (oneMinusArg (131 : Nat) a).1 = (oneMinusArg (131 : Nat) 0).1) →
          argsFor t.probes (131 : Nat) =
            [0, -1, 1, 2, 3, 4, 5, 6, 7, 8, 9, 10, 256, 1000, 65535]) :=
  ⟨by decide, rfl, rfl,
    C6_sampling_order oneMinusArg (fun _ => true) "2.5" false 131 (by decide) rfl rfl⟩

/-- C7 (as amended): `fatal_error` is cleared once per opcode, before the baseline
call, and not again before the later calls for that opcode. So immediately before
a call of the effect function the flag is `true` exactly when an earlier call for
the same opcode ran `Py_FatalError`, and `false` otherwise; in particular it is
`false` before every call when the rejection of the effect function does not
depend on the argument. -/
theorem C7_flag_false_unless_earlier_rejection (f : EffectFn) (HAS_ARG : Int → Bool)
    (v : String) (b : Bool) :
    ∃ t, main f HAS_ARG v (start b) = some t ∧
      (∀ pre p post, t.probes = pre ++ p :: post →
        (p.flagBefore = true ↔
          ∃ q ∈ pre, q.opcode = p.opcode ∧ (f q.opcode q.oparg).2 = true)) ∧
      ((∀ o a, (f o a).2 = (f o 0).2) → ∀ p ∈ t.probes, p.flagBefore = false) := by
  obtain ⟨t, hm⟩ : ∃ t, main f HAS_ARG v (start b) = some t := ⟨_, main_eq f HAS_ARG v (start b)⟩
  have block : ∀ pre p post, t.probes = pre ++ p :: post →
      ∃ o : Nat, p.opcode = (o : Int) ∧
        (bodyOf f HAS_ARG (o : Int)).probes =
          pre.filter (fun q => decide (q.opcode = (o : Int))) ++
            p :: post.filter (fun q => decide (q.opcode = (o : Int))) := by
    intro pre p post hsplit
    have hp : p ∈ t.probes := by rw [hsplit]; simp
    obtain ⟨o, ho, hpo⟩ := probes_main_opcode f HAS_ARG v b t hm p hp
    refine ⟨o, hpo, ?_⟩
    rw [← filter_probes_main f HAS_ARG v b t hm o ho, hsplit, List.filter_append,
      List.filter_cons_of_pos (by simpa using hpo)]
  have part1 : ∀ pre p post, t.probes = pre ++ p :: post →
      (p.flagBefore = true ↔
        ∃ q ∈ pre, q.opcode = p.opcode ∧ (f q.opcode q.oparg).2 = true) := by
    intro pre p post hsplit
    obtain ⟨o, hpo, hB⟩ := block pre p post hsplit
    have hflags := bodyOf_flags f HAS_ARG (o : Int)
    rw [hB] at hflags
    rw [flagsFrom_split f p _ _ false hflags, Bool.false_or, List.any_eq_true]
    constructor
    · rintro ⟨q, hq, hrej⟩
      obtain ⟨hq1, hq2⟩ := List.mem_filter.mp hq
      exact ⟨q, hq1, by rw [hpo]; simpa using hq2, hrej⟩
    · rintro ⟨q, hq, hqo, hrej⟩
      exact ⟨q, List.mem_filter.mpr ⟨hq, by rw [hqo, hpo]; simp⟩, hrej⟩
  refine ⟨t, hm, part1, ?_⟩
  intro hind p hp
  obtain ⟨pre, post, hsplit⟩ := List.append_of_mem hp
  cases hfb : p.flagBefore with
  | false => rfl
  | true =>
    exfalso
    obtain ⟨q, hq, hqo, hrej⟩ := (part1 pre p post hsplit).mp hfb
    obtain ⟨o, hpo, hB⟩ := block pre p post hsplit
    have hrej0 : (f (o : Int) 0).2 = true := by
      rw [← hind (o : Int) q.oparg, ← hpo, ← hqo]; exact hrej
    rw [bodyOf_rejected f HAS_ARG (o : Int) hrej0] at hB
    have hqmem : q ∈ pre.filter (fun q => decide (q.opcode = (o : Int))) :=
      List.mem_filter.mpr ⟨hq, by rw [hqo, hpo]; simp⟩
    have hB' : [(⟨(o : Int), 0, false⟩ : Probe)] =
        pre.filter (fun q => decide (q.opcode = (o : Int))) ++
          p :: post.filter (fun q => decide (q.opcode = (o : Int))) := hB
    have hlen := congrArg List.length hB'
    simp only [List.length_append, List.length_cons, List.length_nil] at hlen
    have : (pre.filter (fun q => decide (q.opcode = (o : Int)))).length = 0 := by omega
    rw [List.length_eq_zero] at this
    rw [this] at hqmem
    simp at hqmem

/-- Counterexample to C7 as stated: with `rejectsArgMinusOne` (rejection depends on the
argument, the returned value is always `0`) and `HAS_ARG` true, the sampling call
`opcode_stack_effect(0, 1)` is made while `fatal_error` is `true`, left set by the
preceding sampling call `opcode_stack_effect(0, -1)`. -/
theorem C7_counterexample :
    ∃ t, main rejectsArgMinusOne (fun _ => true) "3.1" (start false) = some t ∧
      (⟨0, 1, true⟩ : Probe) ∈ t.probes := by
  refine ⟨_, main_eq rejectsArgMinusOne (fun _ => true) "3.1" (start false), ?_⟩
  show _ ∈ [] ++ _
  rw [List.nil_append, List.mem_flatMap]
  exact ⟨0, by decide, by decide⟩

/-- C8: the sweep is deterministic and stateless: started with `fatal_error` holding
either value it completes with one and the same final state (same output, same
calls); and run a second time after itself, with the flag the first run left
behind, it prints the same output again. -/
theorem C8_deterministic_stateless (f : EffectFn) (HAS_ARG : Int → Bool) (v : String)
    (b b' : Bool) :
    ∃ t, main f HAS_ARG v (start b) = some t ∧ main f HAS_ARG v (start b') = some t ∧
      main f HAS_ARG v (start t.fatal_error) = some t ∧
      ∃ t2, main f HAS_ARG v t = some t2 ∧ t2.stdout = t.stdout ++ t.stdout ∧
        render t2.stdout = render t.stdout ++ render t.stdout := by
  refine ⟨_, main_eq f HAS_ARG v (start b), main_eq f HAS_ARG v (start b'),
    main_eq f HAS_ARG v (start _), _, main_eq f HAS_ARG v _, ?_, ?_⟩
  · simp [start]
  · show render ([] ++ _ ++ ([] ++ _)) = render ([] ++ _) ++ render ([] ++ _)
    rw [render_append]

/-- C9: the table entry of opcode `o` depends only on `HAS_ARG(o)` and on the
behaviour of the effect function at opcode `o`: two effect functions that return
the same values and reject in the same way at `(o, a)` for every `a`, with two
predicates agreeing at `o`, give the same entry for `o`, whatever they do at the
other opcodes (so a rejection at an earlier opcode changes nothing for `o`). -/
theorem C9_entry_local (f g : EffectFn) (HAS_ARG HAS_ARG' : Int → Bool) (v w : String)
    (b c : Bool) (o : Nat) (ho : o < 256) (hfg : ∀ a, f o a = g o a)
    (hh : HAS_ARG o = HAS_ARG' o) :
    ∃ s t, main f HAS_ARG v (start b) = some s ∧ main g HAS_ARG' w (start c) = some t ∧
      entry s.stdout o = entry t.stdout o := by
  refine ⟨_, _, main_eq f HAS_ARG v (start b), main_eq g HAS_ARG' w (start c), ?_⟩
  rw [entry_main f HAS_ARG v b _ (main_eq f HAS_ARG v (start b)) o ho,
    entry_main g HAS_ARG' w c _ (main_eq g HAS_ARG' w (start c)) o ho]
  unfold valueOf
  rw [bodyOf_congr f g HAS_ARG HAS_ARG' o hfg hh]

/-- Instance at opcode 201 for `rejects200` (which rejects the earlier opcode 200)
and `plusOne` (which rejects nothing). -/
theorem C9_entry_local_witness :
    201 < 256 ∧ (∀ a, rejects200 (201 : Nat) a = plusOne (201 : Nat) a) ∧
      (fun _ => true) ((201 : Nat) : Int) = (fun i => decide (i ≥ 90)) ((201 : Nat) : Int) ∧
      ∃ s t, main rejects200 (fun _ => true) "2.5" (start false) = some s ∧
        main plusOne (fun i => decide (i ≥ 90)) "2.7" (start true) = some t ∧
        entry s.stdout 201 = entry t.stdout 201 :=
  ⟨by decide, fun _ => rfl, by decide,
    C9_entry_local rejects200 plusOne (fun _ => true) (fun i => decide (i ≥ 90)) "2.5" "2.7"
      false true 201 (by decide) (fun _ => rfl) (by decide)⟩

/-- C10 (as amended): the table entry of `o` is the sentinel `-100` only if `o` was
rejected at the baseline call, or `HAS_ARG(o)` holds and the result at some sample
differs from the baseline, or the baseline value `opcode_stack_effect(o, 0)` is
itself `-100`. -/
theorem C10_sentinel_only_if (f : EffectFn) (HAS_ARG : Int → Bool) (v : String) (b : Bool)
    (o : Nat) (ho : o < 256) :
    ∃ t, main f HAS_ARG v (start b) = some t ∧
      (entry t.stdout o = some (-100) →
        (f o 0).2 = true ∨
        (HAS_ARG o = true ∧
          ∃ a ∈ [-1, 1, 2, 3, 4, 5, 6, 7, 8, 9, 10, 256, 1000, (65535 : Int)],
            (f o a).1 ≠ (f o 0).1) ∨
        (f o 0).1 = -100) := by
  have hm := main_eq f HAS_ARG v (start b)
  refine ⟨_, hm, ?_⟩
  rw [entry_main f HAS_ARG v b _ hm o ho, Option.some.injEq]
  intro hval
  by_cases hr : (f o 0).2 = true
  · exact Or.inl hr
  · have hr' : (f (o : Int) 0).2 = false := by simpa using hr
    by_cases ha : HAS_ARG o = true
    · rw [valueOf_arg f HAS_ARG o hr' ha] at hval
      by_cases hall : ∀ a ∈ samples, (f o a).1 = (f o 0).1
      · rw [if_pos hall] at hval
        exact Or.inr (Or.inr hval)
      · refine Or.inr (Or.inl ⟨ha, ?_⟩)
        by_contra hne
        apply hall
        intro a hmem
        by_contra hc
        exact hne ⟨a, hmem, hc⟩
    · have hn : HAS_ARG (o : Int) = false := by simpa using ha
      rw [valueOf_noarg f HAS_ARG o hr' hn] at hval
      exact Or.inr (Or.inr hval)

/-- Instance at `rejects200`, opcode 200. -/
theorem C10_sentinel_only_if_witness :
    200 < 256 ∧
      ∃ t, main rejects200 (fun _ => true) "2.7" (start false) = some t ∧
        (entry t.stdout 200 = some (-100) →
          (rejects200 (200 : Nat) 0).2 = true ∨
          ((fun _ => true) ((200 : Nat) : Int) = true ∧
            ∃ a ∈ [-1, 1, 2, 3, 4, 5, 6, 7, 8, 9, 10, 256, 1000, (65535 : Int)],
              (rejects200 (200 : Nat) a).1 ≠ (rejects200 (200 : Nat) 0).1) ∨
          (rejects200 (200 : Nat) 0).1 = -100) :=
  ⟨by decide, C10_sentinel_only_if rejects200 (fun _ => true) "2.7" false 200 (by decide)⟩

/-- Counterexample to C10 as stated: `minusHundred` is never rejected and returns the same
value at argument 0 and at every sample, yet the entry of opcode 0 is `-100`. -/
theorem C10_counterexample :
    ∃ t, main minusHundred (fun _ => true) "2.5" (start false) = some t ∧
      entry t.stdout 0 = some (-100) ∧
      (minusHundred 0 0).2 = false ∧
      ¬ ∃ a ∈ [-1, 1, 2, 3, 4, 5, 6, 7, 8, 9, 10, 256, 1000, (65535 : Int)],
          (minusHundred 0 a).1 ≠ (minusHundred 0 0).1 := by
  have hm := main_eq minusHundred (fun _ => true) "2.5" (start false)
  refine ⟨_, hm, ?_, rfl, by decide⟩
  rw [entry_main minusHundred (fun _ => true) "2.5" false _ hm 0 (by decide),
    valueOf_arg minusHundred (fun _ => true) _ rfl rfl]
  decide

/-! ## Counting the calls -/

/-- The calls made for an accepted opcode without argument: the baseline call and
the call of the `else` branch, both with argument 0. -/
theorem argsFor_main_noarg (f : EffectFn) (h : Int → Bool) (v : String) (b : Bool) (t : State)
    (hm : main f h v (start b) = some t) (o : Nat) (ho : o < 256)
    (hacc : (f o 0).2 = false) (hno : h o = false) :
    argsFor t.probes o = [0, 0] := by
  unfold argsFor
  rw [filter_probes_main f h v b t hm o ho, bodyOf_noarg f h o hacc hno, printRow_probes]
  rfl

/-- The calls made for an accepted opcode with argument, when no sample diverges. -/
theorem argsFor_main_arg_all (f : EffectFn) (h : Int → Bool) (v : String) (b : Bool) (t : State)
    (hm : main f h v (start b) = some t) (o : Nat) (ho : o < 256)
    (hacc : (f o 0).2 = false) (harg : h o = true)
    (hall : ∀ a ∈ samples, (f o a).1 = (f o 0).1) :
    argsFor t.probes o = 0 :: samples := by
  unfold argsFor
  rw [filter_probes_main f h v b t hm o ho]
  have e := bodyOf_arg f h o hacc harg
  cases hl : sampleLoop f o (f o 0).1 opargs_to_try ⟨false, [], [⟨o, 0, false⟩]⟩ with
  | none => rw [hl] at e; simp at e
  | some r =>
    rw [hl, Option.map_some', Option.some.injEq] at e
    rw [← e, printRow_probes, sampleLoop_args f o (f o 0).1 samples [] _ r samples_ne_zero hl]
    have hall' : ∀ a ∈ samples, (fun a => decide ((f o a).1 = (f o 0).1)) a = true := by
      intro a ha
      simpa using hall a ha
    rw [List.takeWhile_eq_self_iff.mpr hall', List.dropWhile_eq_nil_iff.mpr hall']
    rfl

/-- C11 (as amended): for an opcode `o` in `0..255` with `HAS_ARG(o)` false that is
accepted at the baseline call, the sweep invokes the effect function for `o`
exactly twice, both times with argument 0: the baseline call and the repeated call
`effect = opcode_stack_effect(i, 0)` of the `else` branch; it is never invoked for
`o` with another argument. -/
theorem C11_no_arg_two_calls (f : EffectFn) (HAS_ARG : Int → Bool) (v : String) (b : Bool)
    (o : Nat) (ho : o < 256) (hno : HAS_ARG o = false) (hacc : (f o 0).2 = false) :
    ∃ t, main f HAS_ARG v (start b) = some t ∧ argsFor t.probes o = [0, 0] ∧
      (t.probes.filter (fun p => decide (p.opcode = (o : Int)))).length = 2 := by
  obtain ⟨t, hm⟩ : ∃ t, main f HAS_ARG v (start b) = some t := ⟨_, main_eq f HAS_ARG v (start b)⟩
  have h2 := argsFor_main_noarg f HAS_ARG v b t hm o ho hacc hno
  refine ⟨t, hm, h2, ?_⟩
  have := congrArg List.length h2
  simpa [argsFor] using this

/-- Instance at the effect `-1`, opcode 23 with `HAS_ARG` false. -/
theorem C11_no_arg_two_calls_witness :
    23 < 256 ∧ (fun _ => false) ((23 : Nat) : Int) = false ∧ (minusOne (23 : Nat) 0).2 = false ∧
      ∃ t, main minusOne (fun _ => false) "2.7" (start false) = some t ∧
        argsFor t.probes (23 : Nat) = [0, 0] ∧
        (t.probes.filter (fun p => decide (p.opcode = ((23 : Nat) : Int)))).length = 2 :=
  ⟨by decide, rfl, rfl,
    C11_no_arg_two_calls minusOne (fun _ => false) "2.7" false 23 (by decide) rfl rfl⟩

/-- Counterexample to C11 as stated: with the effect `-1` and `HAS_ARG` false,
opcode 23 is accepted at the baseline call and the effect function is invoked for
it twice, not once. -/
theorem C11_counterexample :
    (minusOne 23 0).2 = false ∧
      ∃ t, main minusOne (fun _ => false) "2.7" (start false) = some t ∧
        (t.probes.filter (fun p => decide (p.opcode = 23))).length = 2 ∧
        (t.probes.filter (fun p => decide (p.opcode = 23))).length ≠ 1 := by
  obtain ⟨t, hm⟩ : ∃ t, main minusOne (fun _ => false) "2.7" (start false) = some t :=
    ⟨_, main_eq minusOne (fun _ => false) "2.7" (start false)⟩
  have h2 := argsFor_main_noarg minusOne (fun _ => false) "2.7" false t hm 23 (by decide) rfl rfl
  have h3 := congrArg List.length h2
  simp only [argsFor, List.length_map, List.length_cons, List.length_nil, Nat.cast_ofNat] at h3
  refine ⟨rfl, t, hm, h3, ?_⟩
  rw [h3]
  decide

/-- C12 (as amended): a rejection during the sampling stage is not treated as a
rejection. For an opcode `o` in `0..255` with `HAS_ARG(o)` true whose baseline call
is accepted with value `e`, if every sample returns `e` and some sample call runs
`Py_FatalError`, then that rejecting call is really made and the table entry of
`o` is still `e`, which is not the sentinel unless `e` is itself `-100`. The flag
is not read after the baseline check: any effect function with the same returned
values and an accepted baseline call gets the same entry, whatever it rejects
while sampling. -/
theorem C12_sampling_rejection_ignored (f : EffectFn) (HAS_ARG : Int → Bool) (v : String)
    (b : Bool) (o : Nat) (ho : o < 256) (harg : HAS_ARG o = true) (hacc : (f o 0).2 = false)
    (hsame : ∀ a ∈ [-1, 1, 2, 3, 4, 5, 6, 7, 8, 9, 10, 256, 1000, (65535 : Int)],
      (f o a).1 = (f o 0).1)
    (hrej : ∃ a ∈ [-1, 1, 2, 3, 4, 5, 6, 7, 8, 9, 10, 256, 1000, (65535 : Int)],
      (f o a).2 = true) :
    ∃ t, main f HAS_ARG v (start b) = some t ∧
      (∃ a ∈ argsFor t.probes o, (f o a).2 = true) ∧
      entry t.stdout o = some (f o 0).1 ∧
      ((f o 0).1 ≠ -100 → entry t.stdout o ≠ some (-100)) ∧
      ∀ g : EffectFn, (∀ a, (g o a).1 = (f o a).1) → (g o 0).2 = false →
        ∃ t', main g HAS_ARG v (start b) = some t' ∧ entry t'.stdout o = entry t.stdout o := by
  obtain ⟨t, hm⟩ : ∃ t, main f HAS_ARG v (start b) = some t := ⟨_, main_eq f HAS_ARG v (start b)⟩
  have hsame' : ∀ a ∈ samples, (f o a).1 = (f o 0).1 := hsame
  have hent : entry t.stdout o = some (f o 0).1 := by
    rw [entry_main f HAS_ARG v b t hm o ho, valueOf_arg f HAS_ARG o hacc harg, if_pos hsame']
  refine ⟨t, hm, ?_, hent, ?_, ?_⟩
  · obtain ⟨a, ha, hra⟩ := hrej
    refine ⟨a, ?_, hra⟩
    rw [argsFor_main_arg_all f HAS_ARG v b t hm o ho hacc harg hsame']
    exact List.mem_cons_of_mem _ ha
  · intro hne hc
    rw [hent, Option.some.injEq] at hc
    exact hne hc
  · intro g hval hgacc
    obtain ⟨t', hm'⟩ : ∃ t', main g HAS_ARG v (start b) = some t' :=
      ⟨_, main_eq g HAS_ARG v (start b)⟩
    refine ⟨t', hm', ?_⟩
    rw [hent, entry_main g HAS_ARG v b t' hm' o ho, valueOf_arg g HAS_ARG o hgacc harg]
    have : ∀ a ∈ samples, (g o a).1 = (g o 0).1 := by
      intro a ha
      rw [hval a, hval 0]
      exact hsame' a ha
    rw [if_pos this, hval 0]

/-- Instance at `rejectsArgMinusOne` (returns 0 everywhere, rejects at argument
`-1`), opcode 131 with `HAS_ARG` true: the entry is `0`. -/
theorem C12_sampling_rejection_ignored_witness :
    131 < 256 ∧ (fun _ => true) ((131 : Nat) : Int) = true ∧
      (rejectsArgMinusOne (131 : Nat) 0).2 = false ∧
      (∀ a ∈ [-1, 1, 2, 3, 4, 5, 6, 7, 8, 9, 10, 256, 1000, (65535 : Int)],
        (rejectsArgMinusOne (131 : Nat) a).1 = (rejectsArgMinusOne (131 : Nat) 0).1) ∧
      (∃ a ∈ [-1, 1, 2, 3, 4, 5, 6, 7, 8, 9, 10, 256, 1000, (65535 : Int)],
        (rejectsArgMinusOne (131 : Nat) a).2 = true) ∧
      ∃ t, main rejectsArgMinusOne (fun _ => true) "3.1" (start false) = some t ∧
        (∃ a ∈ argsFor t.probes (131 : Nat), (rejectsArgMinusOne (131 : Nat) a).2 = true) ∧
        entry t.stdout 131 = some 0 ∧
        ((rejectsArgMinusOne (131 : Nat) 0).1 ≠ -100 → entry t.stdout 131 ≠ some (-100)) ∧
        ∀ g : EffectFn, (∀ a, (g (131 : Nat) a).1 = (rejectsArgMinusOne (131 : Nat) a).1) →
          (g (131 : Nat) 0).2 = false →
          ∃ t', main g (fun _ => true) "3.1" (start false) = some t' ∧
            entry t'.stdout 131 = entry t.stdout 131 :=
  ⟨by decide, rfl, rfl, by decide, by decide,
    C12_sampling_rejection_ignored rejectsArgMinusOne (fun _ => true) "3.1" false 131
      (by decide) rfl rfl (by decide) (by decide)⟩

/-- Counterexample to C12 as stated: `minusHundredRejectsArgMinusOne` is accepted
at the baseline of opcode 131 with value `-100`, every sample returns `-100`, the
sample call at `-1` runs `Py_FatalError`, and with `HAS_ARG` true the entry of
opcode 131 is the sentinel `-100`. -/
theorem C12_counterexample :
    (minusHundredRejectsArgMinusOne 131 0).2 = false ∧
      (∀ a ∈ [-1, 1, 2, 3, 4, 5, 6, 7, 8, 9, 10, 256, 1000, (65535 : Int)],
        (minusHundredRejectsArgMinusOne 131 a).1 = (minusHundredRejectsArgMinusOne 131 0).1) ∧
      (∃ a ∈ [-1, 1, 2, 3, 4, 5, 6, 7, 8, 9, 10, 256, 1000, (65535 : Int)],
        (minusHundredRejectsArgMinusOne 131 a).2 = true) ∧
      ∃ t, main minusHundredRejectsArgMinusOne (fun _ => true) "3.1" (start false) = some t ∧
        entry t.stdout 131 = some (-100) := by
  have hm := main_eq minusHundredRejectsArgMinusOne (fun _ => true) "3.1" (start false)
  refine ⟨rfl, by decide, by decide, _, hm, ?_⟩
  rw [entry_main minusHundredRejectsArgMinusOne (fun _ => true) "3.1" false _ hm 131 (by decide),
    valueOf_arg minusHundredRejectsArgMinusOne (fun _ => true) _ rfl rfl]
  decide

/-- C14: the sampling can disprove invariance but not prove it. There are an effect
function, an opcode `o` with `HAS_ARG(o)` true and an argument `b` that is not 0
and not in the sample set (here `differsAt11`, opcode 5, `b = 11`) such that
`effect(o, b) != effect(o, 0)` and yet the table entry of `o` is the non-sentinel
value `effect(o, 0)`. -/
theorem C14_sampling_incomplete :
    ∃ (f : EffectFn) (HAS_ARG : Int → Bool) (o : Nat) (b : Int),
      o < 256 ∧ HAS_ARG o = true ∧ b ≠ 0 ∧
        b ∉ [-1, 1, 2, 3, 4, 5, 6, 7, 8, 9, 10, 256, 1000, (65535 : Int)] ∧
        (f o b).1 ≠ (f o 0).1 ∧
        ∃ t, main f HAS_ARG "2.5" (start false) = some t ∧
          entry t.stdout o = some (f o 0).1 ∧ (f o 0).1 ≠ -100 := by
  have hm := main_eq differsAt11 (fun _ => true) "2.5" (start false)
  refine ⟨differsAt11, fun _ => true, 5, 11, by decide, rfl, by decide, by decide, by decide,
    _, hm, ?_, by decide⟩
  rw [entry_main differsAt11 (fun _ => true) "2.5" false _ hm 5 (by decide),
    valueOf_arg differsAt11 (fun _ => true) _ rfl rfl]
  decide

/-! ## The sampling loop with its index -/

/-- The indexed loop, started at index `j` with enough iterations allowed, does
what `sampleLoop` does on the part of the array from `j` on, and every index it
reads lies inside the array. -/
theorem sampleLoopAt_eq (f : EffectFn) (i e : Int) (arr : List Int) :
    ∀ (l : List Int) (fuel j : Nat) (s : State) (reads : List Nat) (r : Int × State),
      arr.drop j = l → l.length ≤ fuel → sampleLoop f i e l s = some r →
      ∃ more, sampleLoopAt f i e arr fuel j s reads = some (r, reads ++ more) ∧
        ∀ k ∈ more, k < arr.length := by
  intro l
  induction l with
  | nil => intro fuel j s reads r _ _ hr; simp [sampleLoop] at hr
  | cons a rest ih =>
    intro fuel j s reads r hdrop hfuel hr
    have hget : arr[j]? = some a := by
      have := List.getElem?_drop arr j 0
      rw [hdrop] at this
      simpa using this.symm
    have hj : j < arr.length := (List.getElem?_eq_some.mp hget).1
    have hrest : arr.drop (j + 1) = rest := by
      rw [← List.tail_drop, hdrop]; rfl
    cases fuel with
    | zero => simp at hfuel
    | succ fuel =>
      have hfuel' : rest.length ≤ fuel := by
        simp only [List.length_cons] at hfuel
        omega
      simp only [sampleLoopAt, hget]
      simp only [sampleLoop] at hr
      by_cases ha : a = 0
      · rw [if_pos ha, Option.some.injEq] at hr
        subst hr
        rw [if_pos ha]
        refine ⟨[j], rfl, ?_⟩
        intro k hk
        rw [List.mem_singleton.mp hk]; exact hj
      · rw [if_neg ha] at hr
        rw [if_neg ha]
        by_cases hd : e ≠ (callEffect f i a s).1
        · rw [if_pos hd, Option.some.injEq] at hr
          subst hr
          rw [if_pos hd]
          refine ⟨[j], rfl, ?_⟩
          intro k hk
          rw [List.mem_singleton.mp hk]; exact hj
        · rw [if_neg hd] at hr
          rw [if_neg hd]
          obtain ⟨more, h1, h2⟩ := ih fuel (j + 1) _ (reads ++ [j]) r hrest hfuel' hr
          refine ⟨j :: more, ?_, ?_⟩
          · rw [h1, List.append_assoc]; rfl
          · intro k hk
            rcases List.mem_cons.mp hk with hk | hk
            · rw [hk]; exact hj
            · exact h2 k hk

/-- The sampling loop makes at most as many calls as there are entries before the
terminating `0`. -/
theorem sampleLoop_calls_le (f : EffectFn) (i e : Int) (pre post : List Int) (s : State)
    (r : Int × State) (hz : ∀ a ∈ pre, a ≠ 0)
    (hr : sampleLoop f i e (pre ++ 0 :: post) s = some r) :
    r.2.probes.length ≤ s.probes.length + pre.length := by
  have h := congrArg List.length (sampleLoop_args f i e pre post s r hz hr)
  simp only [List.length_map, List.length_append] at h
  have h1 := congrArg List.length
    (List.takeWhile_append_dropWhile (fun a => decide ((f i a).1 = e)) pre)
  simp only [List.length_append] at h1
  have h2 := List.length_take_le' 1 (List.dropWhile (fun a => decide ((f i a).1 = e)) pre)
  omega

/-- One opcode costs at most 15 calls of the effect function. -/
theorem bodyOf_probes_le (f : EffectFn) (h : Int → Bool) (i : Int) :
    (bodyOf f h i).probes.length ≤ 15 := by
  by_cases hr : (f i 0).2 = true
  · rw [bodyOf_rejected f h i hr]; simp
  · have hr' : (f i 0).2 = false := by simpa using hr
    by_cases ha : h i = true
    · have e := bodyOf_arg f h i hr' ha
      cases hl : sampleLoop f i (f i 0).1 opargs_to_try ⟨false, [], [⟨i, 0, false⟩]⟩ with
      | none => rw [hl] at e; simp at e
      | some r =>
        rw [hl, Option.map_some', Option.some.injEq] at e
        rw [← e, printRow_probes]
        have := sampleLoop_calls_le f i (f i 0).1 samples [] _ r samples_ne_zero hl
        simpa [samples] using this
    · have hn : h i = false := by simpa using ha
      rw [bodyOf_noarg f h i hr' hn, printRow_probes]; simp

theorem flatMap_length_le {α : Type} (g : Nat → List α) (n : Nat) (hg : ∀ i, (g i).length ≤ n) :
    ∀ l : List Nat, (l.flatMap g).length ≤ l.length * n := by
  intro l
  induction l with
  | nil => simp
  | cons i rest ih =>
    rw [List.flatMap_cons, List.length_append, List.length_cons, Nat.succ_mul]
    have := hg i
    omega

/-- C15: the sampling loop over the zero-terminated array `opargs_to_try`
terminates and stays in bounds. The array has 15 elements and only the last is 0;
for every effect function, opcode, baseline and state the loop, run with its index
from `j = 0`, finishes within 15 iterations, reads only indices `j <= 14` and
makes at most 14 calls; one opcode costs at most 15 calls of the effect function
and the whole sweep at most `256 * 15`. -/
theorem C15_sampling_bounded (f : EffectFn) (HAS_ARG : Int → Bool) (v : String) (b : Bool)
    (i e : Int) (s : State) :
    opargs_to_try.length = 15 ∧ (∀ j : Nat, opargs_to_try[j]? = some 0 ↔ j = 14) ∧
      (∃ r reads, sampleLoopAt f i e opargs_to_try 15 0 s [] = some (r, reads) ∧
        sampleLoop f i e opargs_to_try s = some r ∧ (∀ j ∈ reads, j ≤ 14) ∧
        r.2.probes.length ≤ s.probes.length + 14) ∧
      ∃ t, main f HAS_ARG v (start b) = some t ∧
        (∀ o : Nat, (t.probes.filter (fun p => decide (p.opcode = (o : Int)))).length ≤ 15) ∧
        t.probes.length ≤ 256 * 15 := by
  refine ⟨rfl, ?_, ?_, ?_⟩
  · intro j
    constructor
    · intro hj
      have hlt : j < 15 := (List.getElem?_eq_some.mp hj).1
      interval_cases j <;> first | rfl | (exfalso; revert hj; decide)
    · intro hj; rw [hj]; rfl
  · cases hl : sampleLoop f i e opargs_to_try s with
    | none =>
      have := sampleLoop_isSome f i e opargs_to_try s (by decide)
      rw [hl] at this; simp at this
    | some r =>
      obtain ⟨more, h1, h2⟩ :=
        sampleLoopAt_eq f i e opargs_to_try opargs_to_try 15 0 s [] r rfl (by decide) hl
      refine ⟨r, more, by simpa using h1, rfl, ?_, ?_⟩
      · intro j hj
        have := h2 j hj
        have hlen : opargs_to_try.length = 15 := rfl
        omega
      · have := sampleLoop_calls_le f i e samples [] s r samples_ne_zero hl
        simpa [samples] using this
  · obtain ⟨t, hm⟩ : ∃ t, main f HAS_ARG v (start b) = some t :=
      ⟨_, main_eq f HAS_ARG v (start b)⟩
    refine ⟨t, hm, ?_, ?_⟩
    · intro o
      rw [main_eq, Option.some.injEq] at hm
      subst hm
      show (List.filter _ ([] ++ _)).length ≤ 15
      rw [List.nil_append, filter_flatMap_probes f HAS_ARG o _ (List.nodup_range 256)]
      split
      · exact bodyOf_probes_le f HAS_ARG o
      · simp
    · rw [main_eq, Option.some.injEq] at hm
      subst hm
      show ([] ++ _ : List Probe).length ≤ 256 * 15
      rw [List.nil_append]
      have := flatMap_length_le (fun (i : Nat) => (bodyOf f HAS_ARG (i : Int)).probes) 15
        (fun i => bodyOf_probes_le f HAS_ARG (i : Int)) (List.range 256)
      simpa using this

/-! ## The two drivers -/

theorem se27_sampleLoop_eq (f : EffectFn) (i e : Int) :
    ∀ (l : List Int) (s : State), se27.sampleLoop f i e l s = sampleLoop f i e l s := by
  intro l
  induction l with
  | nil => intro s; rfl
  | cons a rest ih =>
    intro s
    simp only [se27.sampleLoop, sampleLoop, ih]
    rfl

theorem se27_loopBody_eq (f : EffectFn) (h : Int → Bool) (i : Int) (s : State) :
    se27.loopBody f h i s = loopBody f h i s := by
  have hp : se27.printRow i = printRow i := rfl
  have ha : se27.opargs_to_try = opargs_to_try := rfl
  simp only [se27.loopBody, loopBody, se27_sampleLoop_eq, hp, ha]

/-- Closed form of the sweep of `se27.c`. -/
theorem se27_main_eq (f : EffectFn) (h : Int → Bool) (s : State) :
    se27.main f h s = some
      ⟨(bodyOf f h 255).fatal_error,
       s.stdout ++ .header27 :: .openBracket ::
         ((List.range 256).flatMap (fun (i : Nat) => (bodyOf f h (i : Int)).stdout) ++
           [.closeBracket]),
       s.probes ++ (List.range 256).flatMap (fun (i : Nat) => (bodyOf f h (i : Int)).probes)⟩ := by
  obtain ⟨t, h1, h2, h3, h4⟩ :=
    foldlM_loopBody f h (List.range 256) (printf .openBracket (printf .header27 s))
  unfold se27.main
  simp only [se27_loopBody_eq]
  rw [h1]
  have h5 : t.fatal_error = (bodyOf f h 255).fatal_error := by
    rw [h4, List.range_succ, List.foldl_append]; rfl
  cases t with
  | mk tf tout tp =>
    simp only at h2 h3 h5
    subst h2 h3 h5
    simp [printf]

/-- C19: the stand-alone driver of `se27.c` and the shared driver of `main.h` agree
on the table. For every effect function and `HAS_ARG` both complete; after their
first line both print the same lines in the same order (`[`, then 256 data lines,
then `]`), hence the same bytes, and they make the same calls; the first lines are
the header `# Python version 2.7 Stack effects` of `se27.c` and the header
`# Python <PYTHON_VERSION> Stack effects` of `main.h`. -/
theorem C19_drivers_agree (f : EffectFn) (HAS_ARG : Int → Bool) (v : String) (b : Bool) :
    ∃ t t27 rows, main f HAS_ARG v (start b) = some t ∧
      se27.main f HAS_ARG (start b) = some t27 ∧
      t.stdout = Printf.header v :: Printf.openBracket :: (rows ++ [Printf.closeBracket]) ∧
      t27.stdout = Printf.header27 :: Printf.openBracket :: (rows ++ [Printf.closeBracket]) ∧
      rows.length = 256 ∧ (dataRows rows).length = 256 ∧
      dataRows t.stdout = dataRows t27.stdout ∧
      render (t.stdout.drop 1) = render (t27.stdout.drop 1) ∧
      render t.stdout = "# Python " ++ v ++ " Stack effects\n\n" ++ render (t.stdout.drop 1) ∧
      render t27.stdout =
        "# Python version 2.7 Stack effects\n\n" ++ render (t27.stdout.drop 1) ∧
      t.probes = t27.probes := by
  have hk : ∀ i : Nat, (bodyOf f HAS_ARG (i : Int)).stdout =
      [(bodyOf f HAS_ARG (i : Int)).stdout.headD Printf.openBracket] := by
    intro i
    obtain ⟨p, hp, _⟩ := bodyOf_stdout f HAS_ARG (i : Int)
    rw [hp]; rfl
  refine ⟨_, _, (List.range 256).map
      (fun i : Nat => (bodyOf f HAS_ARG (i : Int)).stdout.headD Printf.openBracket),
    main_eq f HAS_ARG v (start b), se27_main_eq f HAS_ARG (start b), ?_, ?_, ?_, ?_, ?_, ?_,
    ?_, ?_, ?_⟩
  · show [] ++ _ = _
    rw [flatMap_eq_map _ _ hk]; rfl
  · show [] ++ _ = _
    rw [flatMap_eq_map _ _ hk]; rfl
  · simp
  · rw [← flatMap_eq_map _ _ hk, flatMap_rows]
    simp
  · simp [start, dataRows, Printf.row?]
  · rfl
  · show render ([] ++ ([Printf.header v] ++ _)) = _
    rw [List.nil_append, render_append]
    rfl
  · show render ([] ++ ([Printf.header27] ++ _)) = _
    rw [List.nil_append, render_append]
    rfl
  · rfl

/-! ## The shipped effect functions -/

/-- Each case of `se25.c` either returns a constant or returns, at one of the
samples, a value different from the one at argument 0. -/
theorem se25_caseReturn_dichotomy (l : se25.Label) :
    (∀ a, se25.caseReturn l a = se25.caseReturn l 0) ∨
      ∃ a ∈ samples, se25.caseReturn l a ≠ se25.caseReturn l 0 := by
  cases l <;> first
    | exact Or.inl (fun _ => rfl)
    | exact Or.inr ⟨1, by decide, by decide⟩
    | exact Or.inr ⟨3, by decide, by decide⟩

/-- At argument 0 every case of `se25.c` returns a value in `-4..10`. -/
theorem se25_caseReturn_range (l : se25.Label) :
    -4 ≤ se25.caseReturn l 0 ∧ se25.caseReturn l 0 ≤ 10 := by
  cases l <;> decide

/-- The cases of `se25.c` whose result depends on the argument are exactly the
argument-scaled ones. -/
theorem se25_varies_iff (l : se25.Label) :
    (∃ a b, se25.caseReturn l a ≠ se25.caseReturn l b) ↔ l ∈ se25.argScaled := by
  cases l <;> first
    | exact ⟨fun ⟨_, _, h⟩ => absurd rfl h, fun h => absurd h (by decide)⟩
    | exact ⟨fun _ => by decide, fun _ => ⟨1, 0, by decide⟩⟩
    | exact ⟨fun _ => by decide, fun _ => ⟨3, 0, by decide⟩⟩

/-- Each case of `se27.c` either returns a constant or returns, at one of the
samples, a value different from the one at argument 0. -/
theorem se27_caseReturn_dichotomy (l : se27.Label) :
    (∀ a, se27.caseReturn l a = se27.caseReturn l 0) ∨
      ∃ a ∈ samples, se27.caseReturn l a ≠ se27.caseReturn l 0 := by
  cases l <;> first
    | exact Or.inl (fun _ => rfl)
    | exact Or.inr ⟨1, by decide, by decide⟩
    | exact Or.inr ⟨3, by decide, by decide⟩

/-- At argument 0 every case of `se27.c` returns a value in `-4..10`. -/
theorem se27_caseReturn_range (l : se27.Label) :
    -4 ≤ se27.caseReturn l 0 ∧ se27.caseReturn l 0 ≤ 10 := by
  cases l <;> decide

/-- The cases of `se27.c` whose result depends on the argument are exactly the
argument-scaled ones. -/
theorem se27_varies_iff (l : se27.Label) :
    (∃ a b, se27.caseReturn l a ≠ se27.caseReturn l b) ↔ l ∈ se27.argScaled := by
  cases l <;> first
    | exact ⟨fun ⟨_, _, h⟩ => absurd rfl h, fun h => absurd h (by decide)⟩
    | exact ⟨fun _ => by decide, fun _ => ⟨1, 0, by decide⟩⟩
    | exact ⟨fun _ => by decide, fun _ => ⟨3, 0, by decide⟩⟩

/-- Each case of `se31.c` either returns a constant or returns, at one of the
samples, a value different from the one at argument 0. -/
theorem se31_caseReturn_dichotomy (l : se31.Label) :
    (∀ a, se31.caseReturn l a = se31.caseReturn l 0) ∨
      ∃ a ∈ samples, se31.caseReturn l a ≠ se31.caseReturn l 0 := by
  cases l <;> first
    | exact Or.inl (fun _ => rfl)
    | exact Or.inr ⟨1, by decide, by decide⟩
    | exact Or.inr ⟨3, by decide, by decide⟩

/-- At argument 0 every case of `se31.c` returns a value in `-4..10`. -/
theorem se31_caseReturn_range (l : se31.Label) :
    -4 ≤ se31.caseReturn l 0 ∧ se31.caseReturn l 0 ≤ 10 := by
  cases l <;> decide

/-- The cases of `se31.c` whose result depends on the argument are exactly the
argument-scaled ones. -/
theorem se31_varies_iff (l : se31.Label) :
    (∃ a b, se31.caseReturn l a ≠ se31.caseReturn l b) ↔ l ∈ se31.argScaled := by
  cases l <;> first
    | exact ⟨fun ⟨_, _, h⟩ => absurd rfl h, fun h => absurd h (by decide)⟩
    | exact ⟨fun _ => by decide, fun _ => ⟨1, 0, by decide⟩⟩
    | exact ⟨fun _ => by decide, fun _ => ⟨3, 0, by decide⟩⟩

theorem switchEffect_some {L : Type} (label : Int → Option L) (ret : L → Int → Int)
    (o : Int) (l : L) (hl : label o = some l) (a : Int) :
    switchEffect label ret o a = (ret l a, false) := by
  simp [switchEffect, hl]

theorem switchEffect_none {L : Type} (label : Int → Option L) (ret : L → Int → Int)
    (o : Int) (hl : label o = none) (a : Int) :
    switchEffect label ret o a = (0, true) := by
  simp [switchEffect, hl]

/-- Whether a `switch` function rejects depends on the opcode alone. -/
theorem switchEffect_rej_indep {L : Type} (label : Int → Option L) (ret : L → Int → Int)
    (o a b : Int) : (switchEffect label ret o a).2 = (switchEffect label ret o b).2 := by
  cases hl : label o with
  | none => rw [switchEffect_none label ret o hl, switchEffect_none label ret o hl]
  | some l => rw [switchEffect_some label ret o l hl, switchEffect_some label ret o l hl]

theorem switchEffect_rej_zero {L : Type} (label : Int → Option L) (ret : L → Int → Int)
    (o a : Int) (h : (switchEffect label ret o a).2 = true) :
    (switchEffect label ret o a).1 = 0 := by
  cases hl : label o with
  | none => rw [switchEffect_none label ret o hl]
  | some l => rw [switchEffect_some label ret o l hl] at h; simp at h

theorem switchEffect_dichotomy {L : Type} (label : Int → Option L) (ret : L → Int → Int)
    (hret : ∀ l, (∀ a, ret l a = ret l 0) ∨ ∃ a ∈ samples, ret l a ≠ ret l 0) (o : Int) :
    (∀ a, (switchEffect label ret o a).1 = (switchEffect label ret o 0).1) ∨
      ∃ a ∈ samples, (switchEffect label ret o a).1 ≠ (switchEffect label ret o 0).1 := by
  cases hl : label o with
  | none =>
    left; intro a
    rw [switchEffect_none label ret o hl, switchEffect_none label ret o hl]
  | some l =>
    simp only [switchEffect_some label ret o l hl]
    exact hret l

theorem switchEffect_range {L : Type} (label : Int → Option L) (ret : L → Int → Int)
    (hret : ∀ l, -4 ≤ ret l 0 ∧ ret l 0 ≤ 10) (o : Int)
    (hacc : (switchEffect label ret o 0).2 = false) :
    -4 ≤ (switchEffect label ret o 0).1 ∧ (switchEffect label ret o 0).1 ≤ 10 := by
  cases hl : label o with
  | none => rw [switchEffect_none label ret o hl] at hacc; simp at hacc
  | some l =>
    simp only [switchEffect_some label ret o l hl]
    exact hret l

theorem shipped_rej_indep (f : EffectFn) (hf : Shipped f) (o a b : Int) :
    (f o a).2 = (f o b).2 := by
  rcases hf with ⟨label, rfl⟩ | ⟨label, rfl⟩ | ⟨label, rfl⟩ <;>
    exact switchEffect_rej_indep label _ o a b

theorem shipped_rej_zero (f : EffectFn) (hf : Shipped f) (o a : Int) (h : (f o a).2 = true) :
    (f o a).1 = 0 := by
  rcases hf with ⟨label, rfl⟩ | ⟨label, rfl⟩ | ⟨label, rfl⟩ <;>
    exact switchEffect_rej_zero label _ o a h

/-- For a shipped function the finite sample decides: at each opcode the result is
the same for all arguments, or it differs from the value at 0 at some sample. -/
theorem shipped_dichotomy (f : EffectFn) (hf : Shipped f) (o : Int) :
    (∀ a, (f o a).1 = (f o 0).1) ∨ ∃ a ∈ samples, (f o a).1 ≠ (f o 0).1 := by
  rcases hf with ⟨label, rfl⟩ | ⟨label, rfl⟩ | ⟨label, rfl⟩
  · exact switchEffect_dichotomy label _ se25_caseReturn_dichotomy o
  · exact switchEffect_dichotomy label _ se27_caseReturn_dichotomy o
  · exact switchEffect_dichotomy label _ se31_caseReturn_dichotomy o

theorem shipped_range (f : EffectFn) (hf : Shipped f) (o : Int) (hacc : (f o 0).2 = false) :
    -4 ≤ (f o 0).1 ∧ (f o 0).1 ≤ 10 := by
  rcases hf with ⟨label, rfl⟩ | ⟨label, rfl⟩ | ⟨label, rfl⟩
  · exact switchEffect_range label _ se25_caseReturn_range o hacc
  · exact switchEffect_range label _ se27_caseReturn_range o hacc
  · exact switchEffect_range label _ se31_caseReturn_range o hacc

/-- When the row of an opcode carries `NOTFIXED`: it was rejected, or it takes an
argument and some sample diverges, or its baseline value is `NOTFIXED` itself. -/
theorem valueOf_sentinel (f : EffectFn) (h : Int → Bool) (i : Int)
    (hv : valueOf f h i = NOTFIXED) :
    (f i 0).2 = true ∨ (h i = true ∧ ∃ a ∈ samples, (f i a).1 ≠ (f i 0).1) ∨
      (f i 0).1 = NOTFIXED := by
  by_cases hr : (f i 0).2 = true
  · exact Or.inl hr
  · have hr' : (f i 0).2 = false := by simpa using hr
    by_cases ha : h i = true
    · rw [valueOf_arg f h i hr' ha] at hv
      by_cases hall : ∀ a ∈ samples, (f i a).1 = (f i 0).1
      · rw [if_pos hall] at hv
        exact Or.inr (Or.inr hv)
      · refine Or.inr (Or.inl ⟨ha, ?_⟩)
        by_contra hne
        apply hall
        intro a hmem
        by_contra hc
        exact hne ⟨a, hmem, hc⟩
    · have hn : h i = false := by simpa using ha
      rw [valueOf_noarg f h i hr' hn] at hv
      exact Or.inr (Or.inr hv)

theorem flagsFrom_all_false (f : EffectFn) :
    ∀ B : List Probe, flagsFrom f false B → (∀ q ∈ B, (f q.opcode q.oparg).2 = false) →
      ∀ p ∈ B, p.flagBefore = false := by
  intro B
  induction B with
  | nil => intro _ _ p hp; simp at hp
  | cons q rest ih =>
    intro hB hrej p hp
    have hq : (f q.opcode q.oparg).2 = false := hrej q (List.mem_cons_self _ _)
    obtain ⟨h1, h2⟩ := hB
    rw [hq] at h2
    rcases List.mem_cons.mp hp with hp | hp
    · rw [hp]; exact h1
    · exact ih h2 (fun x hx => hrej x (List.mem_cons_of_mem _ hx)) p hp

/-- When rejection does not depend on the argument, the flag is `false` before
every call of the sweep. -/
theorem flagBefore_false_of_indep (f : EffectFn) (h : Int → Bool) (v : String) (b : Bool)
    (t : State) (hm : main f h v (start b) = some t) (hind : ∀ o a, (f o a).2 = (f o 0).2) :
    ∀ p ∈ t.probes, p.flagBefore = false := by
  rw [main_eq, Option.some.injEq] at hm
  subst hm
  intro p hp
  have hp' : p ∈ (List.range 256).flatMap (fun (i : Nat) => (bodyOf f h (i : Int)).probes) := by
    simpa [start] using hp
  obtain ⟨o, _, hpo⟩ := List.mem_flatMap.mp hp'
  by_cases hr : (f (o : Int) 0).2 = true
  · rw [bodyOf_rejected f h o hr] at hpo
    simp only [List.mem_singleton] at hpo
    rw [hpo]
  · have hr' : (f (o : Int) 0).2 = false := by simpa using hr
    apply flagsFrom_all_false f _ (bodyOf_flags f h o) _ p hpo
    intro q hq
    rw [bodyOf_probes_opcode f h o q hq, hind, hr']

/-- If no call for opcode `i` rejects, the sampling loop leaves `fatal_error` as
`false` when it found it so. -/
theorem sampleLoop_flag_false (f : EffectFn) (i e : Int) (hacc : ∀ a, (f i a).2 = false) :
    ∀ (l : List Int) (s : State) (r : Int × State), sampleLoop f i e l s = some r →
      s.fatal_error = false → r.2.fatal_error = false := by
  intro l
  induction l with
  | nil => intro s r hr; simp [sampleLoop] at hr
  | cons a rest ih =>
    intro s r hr hs
    have hs' : (callEffect f i a s).2.fatal_error = false := by
      simp [callEffect, hs, hacc a]
    simp only [sampleLoop] at hr
    by_cases ha : a = 0
    · rw [if_pos ha, Option.some.injEq] at hr
      subst hr
      exact hs
    · rw [if_neg ha] at hr
      by_cases hd : e ≠ (callEffect f i a s).1
      · rw [if_pos hd, Option.some.injEq] at hr
        subst hr
        exact hs'
      · rw [if_neg hd] at hr
        exact ih _ r hr hs'

/-- C13: for each of the three shipped effect functions and every opcode it
accepts, the finite sample is sufficient: if the result is not the same for all
arguments (all integers, in particular all `int` values), it already differs from
its value at argument 0 at some sample. Hence an accepted opcode whose result
varies is classified `-100` when `HAS_ARG` holds for it, and an accepted opcode
whose result is a constant is classified with that constant. The opcodes whose
result varies are exactly the argument-scaled ones: `UNPACK_SEQUENCE`, `UNPACK_EX`,
`DUP_TOPX`, `BUILD_TUPLE/LIST/SET`, `RAISE_VARARGS`, `CALL_FUNCTION` and its
`VAR`/`KW` variants, `MAKE_FUNCTION`, `MAKE_CLOSURE`, `BUILD_SLICE`. -/
theorem C13_sample_sufficient (f : EffectFn) (hf : Shipped f) (HAS_ARG : Int → Bool)
    (v : String) (b : Bool) (o : Nat) (ho : o < 256) (hacc : (f o 0).2 = false) :
    ((¬ ∀ a a' : Int, (f o a).1 = (f o a').1) →
        ∃ a ∈ [-1, 1, 2, 3, 4, 5, 6, 7, 8, 9, 10, 256, 1000, (65535 : Int)], (f o a).1 ≠ (f o 0).1) ∧
      (∃ t, main f HAS_ARG v (start b) = some t ∧
        ((¬ ∀ a a' : Int, (f o a).1 = (f o a').1) → HAS_ARG o = true →
          entry t.stdout o = some (-100)) ∧
        (∀ c : Int, (∀ a, (f o a).1 = c) → entry t.stdout o = some c)) ∧
      (∀ (label : Int → Option se25.Label) (o' : Int) (l : se25.Label), label o' = some l →
        ((¬ ∀ a a' : Int, (se25.opcode_stack_effect label o' a).1 =
            (se25.opcode_stack_effect label o' a').1) ↔ l ∈ se25.argScaled)) ∧
      (∀ (label : Int → Option se27.Label) (o' : Int) (l : se27.Label), label o' = some l →
        ((¬ ∀ a a' : Int, (se27.opcode_stack_effect label o' a).1 =
            (se27.opcode_stack_effect label o' a').1) ↔ l ∈ se27.argScaled)) ∧
      (∀ (label : Int → Option se31.Label) (o' : Int) (l : se31.Label), label o' = some l →
        ((¬ ∀ a a' : Int, (se31.opcode_stack_effect label o' a).1 =
            (se31.opcode_stack_effect label o' a').1) ↔ l ∈ se31.argScaled)) := by
  have suff : (¬ ∀ a a' : Int, (f o a).1 = (f o a').1) →
      ∃ a ∈ samples, (f o a).1 ≠ (f o 0).1 := by
    intro hvar
    rcases shipped_dichotomy f hf o with hconst | hdiff
    · exact absurd (fun a a' => by rw [hconst a, hconst a']) hvar
    · exact hdiff
  obtain ⟨t, hm⟩ : ∃ t, main f HAS_ARG v (start b) = some t :=
    ⟨_, main_eq f HAS_ARG v (start b)⟩
  refine ⟨suff, ⟨t, hm, ?_, ?_⟩, ?_, ?_, ?_⟩
  · intro hvar harg
    obtain ⟨a, ha, hne⟩ := suff hvar
    rw [entry_main f HAS_ARG v b t hm o ho, valueOf_arg f HAS_ARG o hacc harg]
    have : ¬ ∀ a ∈ samples, (f o a).1 = (f o 0).1 := fun hall => hne (hall a ha)
    rw [if_neg this]
    rfl
  · intro c hc
    rw [entry_main f HAS_ARG v b t hm o ho]
    by_cases harg : HAS_ARG o = true
    · rw [valueOf_arg f HAS_ARG o hacc harg]
      have : ∀ a ∈ samples, (f o a).1 = (f o 0).1 := fun a _ => by rw [hc a, hc 0]
      rw [if_pos this, hc 0]
    · have hn : HAS_ARG (o : Int) = false := by simpa using harg
      rw [valueOf_noarg f HAS_ARG o hacc hn, hc 0]
  · intro label o' l hl
    simp only [se25.opcode_stack_effect, switchEffect_some label _ o' l hl]
    rw [← se25_varies_iff l]
    push_neg
    rfl
  · intro label o' l hl
    simp only [se27.opcode_stack_effect, switchEffect_some label _ o' l hl]
    rw [← se27_varies_iff l]
    push_neg
    rfl
  · intro label o' l hl
    simp only [se31.opcode_stack_effect, switchEffect_some label _ o' l hl]
    rw [← se31_varies_iff l]
    push_neg
    rfl

/-- Instance at `se25.c` with an excerpt of its numbering: opcode 131
(`CALL_FUNCTION`) varies, already at a sample, and is classified `-100`. -/
theorem C13_sample_sufficient_witness :
    Shipped (se25.opcode_stack_effect se25.excerpt) ∧ 131 < 256 ∧
      (se25.opcode_stack_effect se25.excerpt (131 : Nat) 0).2 = false ∧
      ((¬ ∀ a a' : Int, (se25.opcode_stack_effect se25.excerpt (131 : Nat) a).1 =
          (se25.opcode_stack_effect se25.excerpt (131 : Nat) a').1) →
        ∃ a ∈ [-1, 1, 2, 3, 4, 5, 6, 7, 8, 9, 10, 256, 1000, (65535 : Int)],
          (se25.opcode_stack_effect se25.excerpt (131 : Nat) a).1 ≠
            (se25.opcode_stack_effect se25.excerpt (131 : Nat) 0).1) ∧
      ∃ t, main (se25.opcode_stack_effect se25.excerpt) (fun i => decide (i ≥ 90)) "2.5"
          (start false) = some t ∧
        ((¬ ∀ a a' : Int, (se25.opcode_stack_effect se25.excerpt (131 : Nat) a).1 =
            (se25.opcode_stack_effect se25.excerpt (131 : Nat) a').1) →
          (fun i => decide (i ≥ 90)) ((131 : Nat) : Int) = true →
          entry t.stdout 131 = some (-100)) ∧
        (∀ c : Int, (∀ a, (se25.opcode_stack_effect se25.excerpt (131 : Nat) a).1 = c) →
          entry t.stdout 131 = some c) :=
  ⟨Or.inl ⟨_, rfl⟩, by decide, by decide,
    (C13_sample_sufficient (se25.opcode_stack_effect se25.excerpt) (Or.inl ⟨_, rfl⟩)
      (fun i => decide (i ≥ 90)) "2.5" false 131 (by decide) (by decide)).1,
    (C13_sample_sufficient (se25.opcode_stack_effect se25.excerpt) (Or.inl ⟨_, rfl⟩)
      (fun i => decide (i ≥ 90)) "2.5" false 131 (by decide) (by decide)).2.1⟩

/-- C17: for each of the three shipped effect functions the baseline delta
`opcode_stack_effect(o, 0)` of every accepted opcode lies in `-4..10`, so it is
never the sentinel `-100`; hence in a table generated from one of them a `-100`
row means that the opcode was rejected or that `HAS_ARG` holds for it and its
effect differs from the baseline at some sample. -/
theorem C17_baseline_range (f : EffectFn) (hf : Shipped f) (HAS_ARG : Int → Bool)
    (v : String) (b : Bool) (o : Nat) (ho : o < 256) :
    (∀ o' : Int, (f o' 0).2 = false →
        -4 ≤ (f o' 0).1 ∧ (f o' 0).1 ≤ 10 ∧ (f o' 0).1 ≠ -100) ∧
      ∃ t, main f HAS_ARG v (start b) = some t ∧
        (entry t.stdout o = some (-100) →
          (f o 0).2 = true ∨
          (HAS_ARG o = true ∧ ∃ a ∈ [-1, 1, 2, 3, 4, 5, 6, 7, 8, 9, 10, 256, 1000, (65535 : Int)], (f o a).1 ≠ (f o 0).1)) := by
  have hrange : ∀ o' : Int, (f o' 0).2 = false →
      -4 ≤ (f o' 0).1 ∧ (f o' 0).1 ≤ 10 ∧ (f o' 0).1 ≠ -100 := by
    intro o' hacc
    obtain ⟨h1, h2⟩ := shipped_range f hf o' hacc
    exact ⟨h1, h2, by omega⟩
  obtain ⟨t, hm⟩ : ∃ t, main f HAS_ARG v (start b) = some t :=
    ⟨_, main_eq f HAS_ARG v (start b)⟩
  refine ⟨hrange, t, hm, ?_⟩
  rw [entry_main f HAS_ARG v b t hm o ho, Option.some.injEq]
  intro hval
  rcases valueOf_sentinel f HAS_ARG o hval with h | h | h
  · exact Or.inl h
  · exact Or.inr h
  · by_cases hr : (f (o : Int) 0).2 = true
    · exact Or.inl hr
    · have hr' : (f (o : Int) 0).2 = false := by simpa using hr
      exact absurd h (hrange o hr').2.2

/-- Instance at `se27.c` with an excerpt of its numbering, opcode 92
(`UNPACK_SEQUENCE`). -/
theorem C17_baseline_range_witness :
    Shipped (se27.opcode_stack_effect se27.excerpt) ∧ 92 < 256 ∧
      (∀ o' : Int, (se27.opcode_stack_effect se27.excerpt o' 0).2 = false →
        -4 ≤ (se27.opcode_stack_effect se27.excerpt o' 0).1 ∧
          (se27.opcode_stack_effect se27.excerpt o' 0).1 ≤ 10 ∧
          (se27.opcode_stack_effect se27.excerpt o' 0).1 ≠ -100) ∧
      ∃ t, main (se27.opcode_stack_effect se27.excerpt) (fun i => decide (i ≥ 90)) "2.7"
          (start false) = some t ∧
        (entry t.stdout 92 = some (-100) →
          (se27.opcode_stack_effect se27.excerpt (92 : Nat) 0).2 = true ∨
          ((fun i => decide (i ≥ 90)) ((92 : Nat) : Int) = true ∧
            ∃ a ∈ [-1, 1, 2, 3, 4, 5, 6, 7, 8, 9, 10, 256, 1000, (65535 : Int)],
              (se27.opcode_stack_effect se27.excerpt (92 : Nat) a).1 ≠
                (se27.opcode_stack_effect se27.excerpt (92 : Nat) 0).1)) :=
  ⟨Or.inr (Or.inl ⟨_, rfl⟩), by decide,
    C17_baseline_range (se27.opcode_stack_effect se27.excerpt) (Or.inr (Or.inl ⟨_, rfl⟩))
      (fun i => decide (i ≥ 90)) "2.7" false 92 (by decide)⟩

/-- C18: for each of the three shipped effect functions, whether a call is rejected
depends only on the opcode: `opcode_stack_effect(o, a)` reaches the `default:`
branch (runs `Py_FatalError` and returns 0) exactly when `opcode_stack_effect(o, b)`
does. Consequently no call made for an opcode accepted at the baseline is
rejected, `fatal_error` is `false` before every call of the sweep, and the sampling
loop of an accepted opcode ends with `fatal_error` still `false`. -/
theorem C18_rejection_by_opcode (f : EffectFn) (hf : Shipped f) (HAS_ARG : Int → Bool)
    (v : String) (b : Bool) :
    (∀ o a a' : Int, (f o a).2 = true ↔ (f o a').2 = true) ∧
      (∀ o a : Int, (f o a).2 = true → (f o a).1 = 0) ∧
      (∀ (o e : Int) (s : State), (f o 0).2 = false → s.fatal_error = false →
        ∃ r, sampleLoop f o e opargs_to_try s = some r ∧ r.2.fatal_error = false) ∧
      ∃ t, main f HAS_ARG v (start b) = some t ∧
        (∀ p ∈ t.probes, p.flagBefore = false) ∧
        (∀ p ∈ t.probes, (f p.opcode 0).2 = false → (f p.opcode p.oparg).2 = false) := by
  obtain ⟨t, hm⟩ : ∃ t, main f HAS_ARG v (start b) = some t :=
    ⟨_, main_eq f HAS_ARG v (start b)⟩
  refine ⟨?_, shipped_rej_zero f hf, ?_, t, hm, ?_, ?_⟩
  · intro o a a'
    rw [shipped_rej_indep f hf o a a']
  · intro o e s hacc hs
    cases hl : sampleLoop f o e opargs_to_try s with
    | none =>
      have := sampleLoop_isSome f o e opargs_to_try s (by decide)
      rw [hl] at this; simp at this
    | some r =>
      refine ⟨r, rfl, sampleLoop_flag_false f o e ?_ _ s r hl hs⟩
      intro a
      rw [shipped_rej_indep f hf o a 0, hacc]
  · exact flagBefore_false_of_indep f HAS_ARG v b t hm
      (fun o a => shipped_rej_indep f hf o a 0)
  · intro p _ hacc
    rw [shipped_rej_indep f hf p.opcode p.oparg 0, hacc]

/-- Instance at `se31.c` with an excerpt of its numbering. -/
theorem C18_rejection_by_opcode_witness :
    Shipped (se31.opcode_stack_effect se31.excerpt) ∧
      (∀ o a a' : Int, (se31.opcode_stack_effect se31.excerpt o a).2 = true ↔
        (se31.opcode_stack_effect se31.excerpt o a').2 = true) ∧
      (∀ o a : Int, (se31.opcode_stack_effect se31.excerpt o a).2 = true →
        (se31.opcode_stack_effect se31.excerpt o a).1 = 0) ∧
      (∀ (o e : Int) (s : State), (se31.opcode_stack_effect se31.excerpt o 0).2 = false →
        s.fatal_error = false →
        ∃ r, sampleLoop (se31.opcode_stack_effect se31.excerpt) o e opargs_to_try s = some r ∧
          r.2.fatal_error = false) ∧
      ∃ t, main (se31.opcode_stack_effect se31.excerpt) (fun i => decide (i ≥ 90)) "3.1"
          (start false) = some t ∧
        (∀ p ∈ t.probes, p.flagBefore = false) ∧
        (∀ p ∈ t.probes, (se31.opcode_stack_effect se31.excerpt p.opcode 0).2 = false →
          (se31.opcode_stack_effect se31.excerpt p.opcode p.oparg).2 = false) :=
  ⟨Or.inr (Or.inr ⟨_, rfl⟩),
    C18_rejection_by_opcode (se31.opcode_stack_effect se31.excerpt) (Or.inr (Or.inr ⟨_, rfl⟩))
      (fun i => decide (i ≥ 90)) "3.1" false⟩

/-! ## Reading the printed integers back -/

theorem readInt_check_value : readInt "    -1, # 23,\n" = some (-1) := by decide

theorem readInt_check_sentinel : readInt "  -100, # 200\n" = some (-100) := by decide

theorem readInt_check_empty : readInt "  , # 200\n" = none := by decide

theorem digitChar_isDigit (k : Nat) (hk : k < 10) : (Nat.digitChar k).isDigit = true := by
  interval_cases k <;> decide

theorem digitChar_val (k : Nat) (hk : k < 10) : (Nat.digitChar k).toNat - 48 = k := by
  interval_cases k <;> decide

theorem readDigits_snoc (cs : List Char) (c : Char) :
    readDigits (cs ++ [c]) = 10 * readDigits cs + (c.toNat - 48) := by
  simp [readDigits, List.foldl_append]

/-- The digits written for `n` are a non-empty run of decimal digits whose value is `n`. -/
theorem toDigitsCore_spec : ∀ (fuel n : Nat) (ds : List Char), n < fuel →
    ∃ pre, Nat.toDigitsCore 10 fuel n ds = pre ++ ds ∧ pre ≠ [] ∧
      (∀ c ∈ pre, c.isDigit = true) ∧ readDigits pre = n := by
  intro fuel
  induction fuel with
  | zero => intro n ds h; omega
  | succ fuel ih =>
    intro n ds hn
    have hmod : n % 10 < 10 := Nat.mod_lt _ (by decide)
    simp only [Nat.toDigitsCore]
    by_cases hq : n / 10 = 0
    · rw [if_pos hq]
      refine ⟨[Nat.digitChar (n % 10)], rfl, by simp, ?_, ?_⟩
      · intro c hc
        rw [List.mem_singleton.mp hc]
        exact digitChar_isDigit _ hmod
      · have : readDigits [Nat.digitChar (n % 10)] = (Nat.digitChar (n % 10)).toNat - 48 := by
          simp [readDigits]
        rw [this, digitChar_val _ hmod]
        omega
    · rw [if_neg hq]
      have hlt : n / 10 < fuel := by omega
      obtain ⟨pre, h1, _, h3, h4⟩ := ih (n / 10) (Nat.digitChar (n % 10) :: ds) hlt
      refine ⟨pre ++ [Nat.digitChar (n % 10)], ?_, by simp, ?_, ?_⟩
      · rw [h1]; simp
      · intro c hc
        rcases List.mem_append.mp hc with hc | hc
        · exact h3 c hc
        · rw [List.mem_singleton.mp hc]
          exact digitChar_isDigit _ hmod
      · rw [readDigits_snoc, h4, digitChar_val _ hmod]
        omega

theorem repr_spec (n : Nat) :
    (Nat.repr n).data ≠ [] ∧ (∀ c ∈ (Nat.repr n).data, c.isDigit = true) ∧
      readDigits (Nat.repr n).data = n := by
  obtain ⟨pre, h1, h2, h3, h4⟩ := toDigitsCore_spec (n + 1) n [] (Nat.lt_succ_self n)
  have : (Nat.repr n).data = pre := by
    show Nat.toDigits 10 n = pre
    rw [Nat.toDigits, h1, List.append_nil]
  rw [this]
  exact ⟨h2, h3, h4⟩

theorem readNat?_repr (n : Nat) : readNat? (Nat.repr n).data = some n := by
  obtain ⟨h1, h2, h3⟩ := repr_spec n
  unfold readNat?
  rw [if_pos ⟨h1, List.all_eq_true.mpr h2⟩, h3]

/-- The text of `%d`: no comma and no blank in it, not empty, and it reads back. -/
theorem fmtD_spec (v : Int) :
    (∀ c ∈ (fmtD v).data, (c != ',') = true ∧ (c == ' ') = false) ∧ (fmtD v).data ≠ [] ∧
      (if (fmtD v).data.head? = some '-'
        then (readNat? (fmtD v).data.tail).map (fun (n : Nat) => -(n : Int))
        else (readNat? (fmtD v).data).map (fun (n : Nat) => (n : Int))) = some v := by
  have hdig : ∀ c : Char, c.isDigit = true → (c != ',') = true ∧ (c == ' ') = false := by
    intro c hc
    constructor
    · rw [bne_iff_ne]; rintro rfl; revert hc; decide
    · rw [beq_eq_false_iff_ne]; rintro rfl; revert hc; decide
  cases v with
  | ofNat m =>
    obtain ⟨h1, h2, h3⟩ := repr_spec m
    have hd : (fmtD (Int.ofNat m)).data = (Nat.repr m).data := rfl
    rw [hd]
    refine ⟨fun c hc => hdig c (h2 c hc), h1, ?_⟩
    have hne : ¬ (Nat.repr m).data.head? = some '-' := by
      cases hdat : (Nat.repr m).data with
      | nil => simp
      | cons c cs =>
        have := h2 c (by rw [hdat]; exact List.mem_cons_self _ _)
        simp only [List.head?_cons, Option.some.injEq]
        rintro rfl; revert this; decide
    rw [if_neg hne, readNat?_repr]
    rfl
  | negSucc m =>
    obtain ⟨h1, h2, h3⟩ := repr_spec (m + 1)
    have hd : (fmtD (Int.negSucc m)).data = '-' :: (Nat.repr (m + 1)).data := rfl
    rw [hd]
    refine ⟨?_, by simp, ?_⟩
    · intro c hc
      rcases List.mem_cons.mp hc with hc | hc
      · rw [hc]; decide
      · exact hdig c (h2 c hc)
    · rw [if_pos (by rfl), List.tail_cons, readNat?_repr]
      rfl

/-- A line made of blanks, the `%d` text of `v`, a comma and anything else reads
back as `v`. -/
theorem readInt_of_data (line : String) (blanks tail : List Char) (v : Int)
    (hb : ∀ c ∈ blanks, c = ' ') (hline : line.data = blanks ++ ((fmtD v).data ++ ',' :: tail)) :
    readInt line = some v := by
  obtain ⟨h1, h2, h3⟩ := fmtD_spec v
  have hb1 : ∀ c ∈ blanks, (fun c : Char => c != ',') c = true := by
    intro c hc; rw [hb c hc]; decide
  have hb2 : ∀ c ∈ blanks, (fun c : Char => c == ' ') c = true := by
    intro c hc; rw [hb c hc]; decide
  have hd1 : ∀ c ∈ (fmtD v).data, (fun c : Char => c != ',') c = true := fun c hc => (h1 c hc).1
  have hfield : (line.data.takeWhile (fun c => c != ',')).dropWhile (fun c => c == ' ') =
      (fmtD v).data := by
    rw [hline, List.takeWhile_append_of_pos hb1, List.takeWhile_append_of_pos hd1,
      List.takeWhile_cons_of_neg (by decide), List.append_nil,
      List.dropWhile_append_of_pos hb2]
    cases hdat : (fmtD v).data with
    | nil => exact absurd hdat h2
    | cons c cs =>
      have := (h1 c (by rw [hdat]; exact List.mem_cons_self _ _)).2
      rw [List.dropWhile_cons_of_neg (by simpa using this)]
  unfold readInt
  simp only [hfield]
  exact h3

theorem readInt_valueRow_text (e i : Int) :
    readInt ("  " ++ fmtD4 e ++ ", # " ++ fmtD i ++ ",\n") = some e := by
  apply readInt_of_data _ (' ' :: ' ' :: List.replicate (4 - (fmtD e).length) ' ')
    (' ' :: '#' :: ' ' :: ((fmtD i).data ++ [',', '\n'])) e
  · intro c hc
    simp only [List.mem_cons, List.mem_replicate] at hc
    rcases hc with hc | hc | hc
    · exact hc
    · exact hc
    · exact hc.2
  · simp [fmtD4, String.data_append]

theorem readInt_sentinelRow_text (v i : Int) :
    readInt ("  " ++ fmtD v ++ ", # " ++ fmtD i ++ "\n") = some v := by
  apply readInt_of_data _ [' ', ' '] (' ' :: '#' :: ' ' :: ((fmtD i).data ++ ['\n'])) v
  · intro c hc
    simp only [List.mem_cons, List.mem_singleton, List.mem_nil_iff, or_false, or_self] at hc
    exact hc
  · simp [String.data_append]

theorem printRow_stdout (i v : Int) (t : State) :
    (printRow i (v, t)).stdout =
      t.stdout ++ [if v ≠ NOTFIXED then Printf.valueRow v i else Printf.sentinelRow i] := by
  unfold printRow
  by_cases hv : v ≠ NOTFIXED
  · simp only [hv, if_true, not_false_eq_true, ne_eq]; rfl
  · simp only [hv, if_false]; rfl

/-- The line printed for opcode `i`: the `%4d` row when its value is not
`NOTFIXED`, the sentinel row otherwise. -/
theorem bodyOf_stdout_exact (f : EffectFn) (h : Int → Bool) (i : Int) :
    (bodyOf f h i).stdout =
      [if valueOf f h i ≠ NOTFIXED then Printf.valueRow (valueOf f h i) i
        else Printf.sentinelRow i] := by
  by_cases hr : (f i 0).2 = true
  · rw [valueOf_rejected f h i hr, bodyOf_rejected f h i hr, if_neg (by simp)]
  · have hr' : (f i 0).2 = false := by simpa using hr
    by_cases ha : h i = true
    · obtain ⟨t, h1, h2⟩ := sampleLoop_value f i (f i 0).1 samples []
        ⟨false, [], [⟨i, 0, false⟩]⟩ samples_ne_zero
      have e := bodyOf_arg f h i hr' ha
      rw [opargs_to_try_eq, h1, Option.map_some', Option.some.injEq] at e
      rw [valueOf_arg f h i hr' ha, ← e, printRow_stdout, h2]
      rfl
    · have hn : h i = false := by simpa using ha
      rw [valueOf_noarg f h i hr' hn, bodyOf_noarg f h i hr' hn, printRow_stdout]
      rfl

/-- The text of a data row with value `val` for opcode `i`, and what it reads as. -/
theorem row_text (p : Printf) (val i : Int) (hrow : p.row? = some (val, i)) :
    (p.text = "  " ++ (String.mk (List.replicate (4 - (fmtD val).length) ' ') ++ fmtD val) ++
          ", # " ++ fmtD i ++ ",\n" ∨
        (val = -100 ∧ p.text = "  " ++ fmtD val ++ ", # " ++ fmtD i ++ "\n")) ∧
      readInt p.text = some val := by
  cases p with
  | header s => simp [Printf.row?] at hrow
  | openBracket => simp [Printf.row?] at hrow
  | closeBracket => simp [Printf.row?] at hrow
  | header27 => simp [Printf.row?] at hrow
  | sentinelRow j =>
    simp only [Printf.row?, Option.some.injEq, Prod.mk.injEq] at hrow
    obtain ⟨h1, h2⟩ := hrow
    subst h1 h2
    exact ⟨Or.inr ⟨rfl, rfl⟩, readInt_sentinelRow_text NOTFIXED j⟩
  | valueRow e j =>
    simp only [Printf.row?, Option.some.injEq, Prod.mk.injEq] at hrow
    obtain ⟨h1, h2⟩ := hrow
    subst h1 h2
    exact ⟨Or.inl rfl, readInt_valueRow_text e j⟩

/-- C16 (as amended): every data line carries one parseable integer and its opcode.
For every `i` in `0..255` the line for opcode `i` is: two spaces; the decimal
integer `v` right-justified in a field of width 4, that is preceded by
`4 - length` further blanks when it has fewer than 4 characters; the text `, # `;
the decimal opcode `i`; a comma; a newline, when the table entry `v` of `i` is not
`-100`; and, when the entry is `-100` (a sentinel row), exactly two spaces, `-100`,
the text `, # `, the decimal opcode `i` and a newline, without a trailing comma.
Reading the integer before the first comma of each of the 256 data lines,
skipping blanks, recovers the table, in order, for sentinel rows and the other
rows alike. -/
theorem C16_lines_read_back (f : EffectFn) (HAS_ARG : Int → Bool) (v : String) (b : Bool) :
    ∃ t rows, main f HAS_ARG v (start b) = some t ∧
      t.stdout = Printf.header v :: Printf.openBracket :: (rows ++ [Printf.closeBracket]) ∧
      rows.length = 256 ∧
      (∀ i : Fin 256, ∃ val : Int, entry t.stdout i = some val ∧
        ((val ≠ -100 ∧ (rows[i.val]?).map Printf.text = some
            ("  " ++ (String.mk (List.replicate (4 - (fmtD val).length) ' ') ++ fmtD val) ++
              ", # " ++ fmtD (i.val : Int) ++ ",\n")) ∨
          (val = -100 ∧ (rows[i.val]?).map Printf.text = some
            ("  -100, # " ++ fmtD (i.val : Int) ++ "\n")))) ∧
      rows.map (fun p => readInt p.text) = (List.range 256).map (fun o => entry t.stdout o) := by
  have hk : ∀ i : Nat, (bodyOf f HAS_ARG (i : Int)).stdout =
      [(bodyOf f HAS_ARG (i : Int)).stdout.headD Printf.openBracket] := by
    intro i
    obtain ⟨p, hp, _⟩ := bodyOf_stdout f HAS_ARG (i : Int)
    rw [hp]; rfl
  have hrow : ∀ i : Nat, ((bodyOf f HAS_ARG (i : Int)).stdout.headD Printf.openBracket).row? =
      some (valueOf f HAS_ARG (i : Int), (i : Int)) := by
    intro i
    obtain ⟨p, hp, hr⟩ := bodyOf_stdout f HAS_ARG (i : Int)
    rw [hp]; exact hr
  obtain ⟨t, hm⟩ : ∃ t, main f HAS_ARG v (start b) = some t :=
    ⟨_, main_eq f HAS_ARG v (start b)⟩
  have hent : ∀ o : Nat, o < 256 → entry t.stdout o = some (valueOf f HAS_ARG (o : Int)) :=
    fun o ho => entry_main f HAS_ARG v b t hm o ho
  refine ⟨t, (List.range 256).map
      (fun i : Nat => (bodyOf f HAS_ARG (i : Int)).stdout.headD Printf.openBracket),
    hm, ?_, ?_, ?_, ?_⟩
  · rw [main_eq, Option.some.injEq] at hm
    subst hm
    show [] ++ _ = _
    rw [flatMap_eq_map _ _ hk]; rfl
  · simp
  · intro i
    refine ⟨valueOf f HAS_ARG (i.val : Int), hent i.val i.isLt, ?_⟩
    rw [List.getElem?_map, List.getElem?_range i.isLt, Option.map_some', Option.map_some',
      bodyOf_stdout_exact f HAS_ARG (i.val : Int)]
    by_cases hv : valueOf f HAS_ARG (i.val : Int) ≠ NOTFIXED
    · rw [if_pos hv]
      exact Or.inl ⟨hv, rfl⟩
    · rw [if_neg hv]
      exact Or.inr ⟨not_not.mp hv, rfl⟩
  · rw [List.map_map]
    apply List.map_congr_left
    intro o ho
    rw [hent o (List.mem_range.mp ho)]
    exact (row_text _ _ _ (hrow o)).2

/-- Counterexample to C16 as stated: with the effect `-1` and `HAS_ARG` false the
entry of opcode 23 is `-1` and its line is `    -1, # 23,`, with four blanks
before the integer because of `%4d`, not the two of the stated shape. -/
theorem C16_counterexample :
    ∃ t rows, main minusOne (fun _ => false) "2.5" (start false) = some t ∧
      t.stdout = Printf.header "2.5" :: Printf.openBracket :: (rows ++ [Printf.closeBracket]) ∧
      entry t.stdout 23 = some (-1) ∧
      (rows[23]?).map Printf.text = some "    -1, # 23,\n" ∧
      "    -1, # 23,\n" ≠ "  " ++ fmtD (-1) ++ ", # " ++ fmtD 23 ++ ",\n" ∧
      "    -1, # 23,\n" ≠ "  " ++ fmtD (-1) ++ ", # " ++ fmtD 23 ++ "\n" := by
  have hk : ∀ i : Nat, (bodyOf minusOne (fun _ => false) (i : Int)).stdout =
      [(bodyOf minusOne (fun _ => false) (i : Int)).stdout.headD Printf.openBracket] := by
    intro i
    obtain ⟨p, hp, _⟩ := bodyOf_stdout minusOne (fun _ => false) (i : Int)
    rw [hp]; rfl
  obtain ⟨t, hm⟩ : ∃ t, main minusOne (fun _ => false) "2.5" (start false) = some t :=
    ⟨_, main_eq minusOne (fun _ => false) "2.5" (start false)⟩
  refine ⟨t, (List.range 256).map
      (fun i : Nat => (bodyOf minusOne (fun _ => false) (i : Int)).stdout.headD
        Printf.openBracket),
    hm, ?_, ?_, ?_, by decide, by decide⟩
  · rw [main_eq, Option.some.injEq] at hm
    subst hm
    show [] ++ _ = _
    rw [flatMap_eq_map _ _ hk]; rfl
  · rw [entry_main minusOne (fun _ => false) "2.5" false t hm 23 (by decide),
      valueOf_noarg minusOne (fun _ => false) _ rfl rfl]
    rfl
  · rw [List.getElem?_map, List.getElem?_range (by decide), Option.map_some', Option.map_some']
    decide

end Maynard
